import Mathlib

/-!
Shallow embedding of the estel-lang interpreter core (lexer, parser, executor)
for verifying the natural-language specification against the source.

Modelling conventions, used throughout:
* Rust `i32` is modelled as `Int` (unbounded; none of the verified claims
  depends on 32-bit overflow, which in Rust would panic in debug builds).
* Rust `f32` is modelled as `Rat`.  None of the verified claims depends on the
  value of a float, only on which constructor (`Ok`/`Err`, `Float`/...) the
  source produces; in particular `Rat` division by zero yields `0` where `f32`
  yields `inf`, but in both cases the source wraps the quotient in `Ok(Float _)`.
* A Rust function that can `panic!` (including `unwrap()` on `None`/empty pops
  and unreachable match arms) is modelled with an explicit `panic` outcome
  (`Option` with `none` = panic, or the `panic` constructor of a result type).
* Source loops whose progress depends on runtime data are modelled with an
  explicit fuel parameter; running out of fuel is a distinct outcome and is
  never identified with a panic.
-/

namespace Estel

/-! ### errors/run_time.rs and errors/parse_time.rs : error kinds -/

/-- `LiteralOpError` from errors/run_time.rs. -/
inductive LiteralOpError where
  | InvalidTypeError
  | DivByZeroError
  | UndefinedVariableError
deriving DecidableEq, Repr

/-- `LexError` from errors/parse_time.rs. -/
inductive LexError where
  | InvalidTokenError
  | UnterminatedStringError
deriving DecidableEq, Repr

/-! ### token.rs : literals, operators, keywords, tokens -/

/-- `Literal` from token.rs (`Number(i32)`, `String(String)`, `Float(f32)`, `Bool(bool)`). -/
inductive Literal where
  | Number (n : Int)
  | Str (s : String)
  | Float (q : Rat)
  | Boolean (b : Bool)
deriving DecidableEq, Repr

/-- `Operator` from token.rs.  This revision of token.rs has no `Mod` variant. -/
inductive Operator where
  | Sub | Add | Mul | Div
  | Greater | Less | GreaterEqual | LessEqual
  | Equal | NotEqual | Or | And
deriving DecidableEq, Repr

/-- `Unary` from token.rs. -/
inductive Unary where
  | Neg
  | Not
deriving DecidableEq, Repr

/-- `Keyword` from token.rs: only `Print` and `Let` exist in this revision of the
enum itself; a `While` variant is required by parser.rs (its `make_block`
matches on `Keyword::While`) and by the lexer's own tests, so it is included
here, but `Keyword::new_keyword` below is exactly the token.rs source and never
produces it. -/
inductive Keyword where
  | Print
  | Let
  | While
deriving DecidableEq, Repr

/-- `Keyword::new_keyword` from token.rs, lines 332-340: only `"print"` and
`"let"` are recognized; every other word (including `"while"`) gives `None`. -/
def Keyword.new_keyword (text : String) : Option Keyword :=
  match text with
  | "print" => some .Print
  | "let" => some .Let
  | _ => none

/-- `TokenType` from token.rs.  `Lbrace`/`Rbrace` are absent from this revision
of token.rs but are required by lexer.rs and parser.rs (and listed in the
spec's token model), so they are included. The Rust field `class` of `Token`
is named `kind` here (`class` is a Lean keyword). -/
inductive TokenType where
  | Literal (l : Literal)
  | Operator (o : Operator)
  | Unary (u : Unary)
  | Error (e : LexError)
  | Keyword (k : Keyword)
  | Ident (name : String)
  | Lparen
  | Rparen
  | Lbrace
  | Rbrace
  | Assign
  | StmtEnd
  | Eof
deriving DecidableEq, Repr

/-- `Token` from token.rs: `{ class, start, line }` (field `class` renamed `kind`). -/
structure Token where
  kind : TokenType
  start : Nat
  line : Nat
deriving DecidableEq, Repr

/-- Digit-string to natural number, used to model `str::parse`. -/
def parseNatDigits (cs : List Char) : Nat :=
  cs.foldl (fun a c => a * 10 + (c.toNat - '0'.toNat)) 0

/-- `TokenType::new_number_literal`: `text.parse::<i32>().unwrap()` on an
all-digit string (modelled with unbounded `Int`). -/
def TokenType.new_number_literal (text : String) : TokenType :=
  .Literal (.Number (Int.ofNat (parseNatDigits text.data)))

/-- Parse a digit string with at most one `.` as a rational, modelling
`text.parse::<f32>()`. -/
def parseFloatStr (text : String) : Rat :=
  match text.splitOn "." with
  | [a] => (parseNatDigits a.data : Rat)
  | [a, b] => (parseNatDigits a.data : Rat) + (parseNatDigits b.data : Rat) / (10 ^ b.length : Rat)
  | _ => 0

/-- `TokenType::new_float_literal` from token.rs. -/
def TokenType.new_float_literal (text : String) : TokenType :=
  .Literal (.Float (parseFloatStr text))

/-- `TokenType::new_string_literal` from token.rs. -/
def TokenType.new_string_literal (text : String) : TokenType :=
  .Literal (.Str text)

/-- `TokenType::new_operator` from token.rs, lines 44-60.  The Rust source ends
with `_ => panic!("Invalid operator")`; the panic is modelled as `none`.
Note there is no `"%"` arm: this revision of `Operator` has no `Mod`. -/
def TokenType.new_operator (text : String) : Option TokenType :=
  match text with
  | "+" => some (.Operator .Add)
  | "-" => some (.Operator .Sub)
  | "*" => some (.Operator .Mul)
  | "/" => some (.Operator .Div)
  | ">" => some (.Operator .Greater)
  | "<" => some (.Operator .Less)
  | ">=" => some (.Operator .GreaterEqual)
  | "<=" => some (.Operator .LessEqual)
  | "==" => some (.Operator .Equal)
  | "!=" => some (.Operator .NotEqual)
  | "or" => some (.Operator .Or)
  | "and" => some (.Operator .And)
  | _ => none

/-- `TokenType::new_unary` from token.rs (panic modelled as `none`). -/
def TokenType.new_unary (text : Char) : Option TokenType :=
  match text with
  | '-' => some (.Unary .Neg)
  | '!' => some (.Unary .Not)
  | _ => none

/-- `Literal::is_truthy` from token.rs. -/
def Literal.is_truthy : Literal → Bool
  | .Number n => n != 0
  | .Str s => !s.isEmpty
  | .Float q => q != 0
  | .Boolean b => b

/-- String repetition `for _ in 0..n { push_str }` from token.rs `mul`. -/
def repeatStr (s : String) (n : Int) : String :=
  String.join (List.replicate n.toNat s)

/-- Decimal rendering used by `Literal::to_string` (via Rust `to_string`).
Only the `Number`, `Str` and `Bool` cases are value-faithful; `Float` rendering
is a stand-in (no claim depends on it). -/
def Literal.to_string : Literal → String
  | .Number n => toString n
  | .Str s => s
  | .Float q => toString q.num ++ "/" ++ toString q.den
  | .Boolean b => if b then "true" else "false"

/-- `Literal::add` from token.rs. -/
def Literal.add : Literal → Literal → Except LiteralOpError Literal
  | .Number num1, .Number num2 => .ok (.Number (num1 + num2))
  | .Number num1, .Str str => .ok (.Str ((Literal.Number num1).to_string ++ str))
  | .Number num1, .Float num2 => .ok (.Float ((num1 : Rat) + num2))
  | .Number _, _ => .error .InvalidTypeError
  | .Str str1, .Number num => .ok (.Str (str1 ++ (Literal.Number num).to_string))
  | .Str str1, .Str str2 => .ok (.Str (str1 ++ str2))
  | .Str str1, .Float num => .ok (.Str (str1 ++ (Literal.Float num).to_string))
  | .Str str1, .Boolean b => .ok (.Str (str1 ++ (Literal.Boolean b).to_string))
  | .Float num1, .Number num2 => .ok (.Float (num1 + (num2 : Rat)))
  | .Float num1, .Str str => .ok (.Str ((Literal.Float num1).to_string ++ str))
  | .Float num1, .Float num2 => .ok (.Float (num1 + num2))
  | .Float _, _ => .error .InvalidTypeError
  | .Boolean b, .Str str => .ok (.Str ((Literal.Boolean b).to_string ++ str))
  | .Boolean _, _ => .error .InvalidTypeError

/-- `Literal::sub` from token.rs. -/
def Literal.sub : Literal → Literal → Except LiteralOpError Literal
  | .Number num1, .Number num2 => .ok (.Number (num1 - num2))
  | .Number num1, .Float num2 => .ok (.Float ((num1 : Rat) - num2))
  | .Number _, _ => .error .InvalidTypeError
  | .Float num1, .Number num2 => .ok (.Float (num1 - (num2 : Rat)))
  | .Float num1, .Float num2 => .ok (.Float (num1 - num2))
  | .Float _, _ => .error .InvalidTypeError
  | _, _ => .error .InvalidTypeError

/-- `Literal::mul` from token.rs. -/
def Literal.mul : Literal → Literal → Except LiteralOpError Literal
  | .Number num1, .Number num2 => .ok (.Number (num1 * num2))
  | .Number num1, .Str str => .ok (.Str (repeatStr str num1))
  | .Number num1, .Float num2 => .ok (.Float ((num1 : Rat) * num2))
  | .Number _, _ => .error .InvalidTypeError
  | .Str str, .Number num => .ok (.Str (repeatStr str num))
  | .Str _, _ => .error .InvalidTypeError
  | .Float num1, .Number num2 => .ok (.Float (num1 * (num2 : Rat)))
  | .Float num1, .Float num2 => .ok (.Float (num1 * num2))
  | .Float _, _ => .error .InvalidTypeError
  | _, _ => .error .InvalidTypeError

/-- `Literal::div` from token.rs, lines 190-208.  Note: no check for a zero
divisor anywhere; every Number/Float combination returns `Ok(Float(_))` and
`DivByZeroError` is never constructed. -/
def Literal.div : Literal → Literal → Except LiteralOpError Literal
  | .Number num1, .Number num2 => .ok (.Float ((num1 : Rat) / (num2 : Rat)))
  | .Number num1, .Float num2 => .ok (.Float ((num1 : Rat) / num2))
  | .Number _, _ => .error .InvalidTypeError
  | .Float num1, .Number num2 => .ok (.Float (num1 / (num2 : Rat)))
  | .Float num1, .Float num2 => .ok (.Float (num1 / num2))
  | .Float _, _ => .error .InvalidTypeError
  | _, _ => .error .InvalidTypeError

/-- `Literal::greater` from token.rs. -/
def Literal.greater : Literal → Literal → Except LiteralOpError Literal
  | .Number num1, .Number num2 => .ok (.Boolean (num2 < num1))
  | .Number num1, .Float num2 => .ok (.Boolean (num2 < (num1 : Rat)))
  | .Number _, _ => .error .InvalidTypeError
  | .Float num1, .Number num2 => .ok (.Boolean ((num2 : Rat) < num1))
  | .Float num1, .Float num2 => .ok (.Boolean (num2 < num1))
  | .Float _, _ => .error .InvalidTypeError
  | _, _ => .error .InvalidTypeError

/-- `Literal::less` from token.rs. -/
def Literal.less : Literal → Literal → Except LiteralOpError Literal
  | .Number num1, .Number num2 => .ok (.Boolean (num1 < num2))
  | .Number num1, .Float num2 => .ok (.Boolean ((num1 : Rat) < num2))
  | .Number _, _ => .error .InvalidTypeError
  | .Float num1, .Number num2 => .ok (.Boolean (num1 < (num2 : Rat)))
  | .Float num1, .Float num2 => .ok (.Boolean (num1 < num2))
  | .Float _, _ => .error .InvalidTypeError
  | _, _ => .error .InvalidTypeError

/-- `Literal::equal` from token.rs: structural equality of the derived
`PartialEq`, wrapped in a `Bool` literal. -/
def Literal.equal (l other : Literal) : Literal :=
  .Boolean (decide (l = other))

/-- `Literal::not` from token.rs. -/
def Literal.not (l : Literal) : Literal :=
  .Boolean (!l.is_truthy)

/-- `Literal::or` from token.rs. -/
def Literal.or (l other : Literal) : Literal :=
  .Boolean (l.is_truthy || other.is_truthy)

/-- `Literal::and` from token.rs. -/
def Literal.and (l other : Literal) : Literal :=
  .Boolean (l.is_truthy && other.is_truthy)

/-- `Literal::greater_equal` from token.rs: `greater(other)?.or(equal(other))`. -/
def Literal.greater_equal (l other : Literal) : Except LiteralOpError Literal :=
  match l.greater other with
  | .error e => .error e
  | .ok g => .ok (g.or (l.equal other))

/-- `Literal::less_equal` from token.rs. -/
def Literal.less_equal (l other : Literal) : Except LiteralOpError Literal :=
  match l.less other with
  | .error e => .error e
  | .ok g => .ok (g.or (l.equal other))

/-- `Literal::not_equal` from token.rs. -/
def Literal.not_equal (l other : Literal) : Literal :=
  (l.equal other).not

/-- `Literal::negate` from token.rs. -/
def Literal.negate : Literal → Except LiteralOpError Literal
  | .Number num => .ok (.Number (-num))
  | .Float num => .ok (.Float (-num))
  | _ => .error .InvalidTypeError

/-- `Operator::precedence` from token.rs, lines 307-316. -/
def Operator.precedence : Operator → Nat
  | .Or => 1
  | .And => 2
  | .Equal | .NotEqual => 3
  | .Greater | .Less | .GreaterEqual | .LessEqual => 4
  | .Add | .Sub => 5
  | .Mul | .Div => 6

/-! ### lexer.rs

The lexer state (`source`, `pos`, `current_char`) is modelled by the list of
remaining characters; `advance()` is dropping the head and incrementing the
running `token_start` column counter.  The sub-lexers return the produced
`TokenType` together with the remaining characters; the number of characters
they consumed is recovered as the difference of list lengths. -/

/-- Characters that terminate a number / identifier scan (the same break set
appears in `lex_number` and `lex_keyword_or_identifier` in lexer.rs). -/
def breakChars : List Char :=
  [' ', '\r', '\n', '\t', ';', '(', ')', '{', '}', '+', '-', '*', '/', '%', '=', '>', '<']

/-- Loop of `Lexer::lex_number` from lexer.rs: accumulate digits, accept at
most one dot; a second dot or a non-break character is an immediate
`InvalidToken` error returned without consuming the offending character. -/
def lex_number_go : List Char → String → Bool → TokenType × List Char
  | [], number, is_float =>
    (if is_float then TokenType.new_float_literal number else TokenType.new_number_literal number, [])
  | c :: rest, number, is_float =>
    if c.isDigit then lex_number_go rest (number.push c) is_float
    else if c = '.' then
      if !is_float then lex_number_go rest (number.push c) true
      else (.Error .InvalidTokenError, c :: rest)
    else if c ∈ breakChars then
      (if is_float then TokenType.new_float_literal number else TokenType.new_number_literal number,
        c :: rest)
    else (.Error .InvalidTokenError, c :: rest)

/-- `Lexer::lex_number` from lexer.rs. -/
def lex_number (cs : List Char) : TokenType × List Char :=
  lex_number_go cs "" false

/-- The escape-character handling inside `Lexer::lex_string`: push the escaped
character for the recognized escapes, push nothing otherwise. -/
def escape_char (e : Char) (acc : String) : String :=
  match e with
  | 'n' => acc.push '\n'
  | 'r' => acc.push '\r'
  | 't' => acc.push '\t'
  | '\\' => acc.push '\\'
  | '\'' => acc.push '\''
  | '"' => acc.push '"'
  | _ => acc

/-- Loop of `Lexer::lex_string` from lexer.rs (after the opening quote was
consumed): consume until the matching quote, handling backslash escapes;
end of input yields `UnterminatedString`. -/
def lex_string_go : List Char → Char → String → TokenType × List Char
  | [], _, _ => (.Error .UnterminatedStringError, [])
  | c :: rest, start_char, acc =>
    if c = start_char then (TokenType.new_string_literal acc, rest)
    else if c = '\\' then
      match rest with
      | [] => (.Error .UnterminatedStringError, [])
      | e :: rest2 => lex_string_go rest2 start_char (escape_char e acc)
    else lex_string_go rest start_char (acc.push c)

/-- `Lexer::lex_string` from lexer.rs; `start_char` is the opening quote
(already consumed), `rest` the characters after it. -/
def lex_string (start_char : Char) (rest : List Char) : TokenType × List Char :=
  lex_string_go rest start_char ""

/-- Final classification step of `Lexer::lex_keyword_or_identifier`: keyword,
`and`/`or` operator, boolean literal, else identifier.  The `new_operator`
fallback arm is unreachable (the word is `"and"` or `"or"` there). -/
def classify_word (word : String) : TokenType :=
  match Keyword.new_keyword word with
  | some keyword => .Keyword keyword
  | none =>
    if word = "and" ∨ word = "or" then
      match TokenType.new_operator word with
      | some t => t
      | none => .Error .InvalidTokenError
    else if word = "true" ∨ word = "false" then .Literal (.Boolean (word == "true"))
    else .Ident word

/-- Loop of `Lexer::lex_keyword_or_identifier` from lexer.rs. -/
def lex_keyword_go : List Char → String → TokenType × List Char
  | [], word => (classify_word word, [])
  | c :: rest, word =>
    if c.isAlpha || c.isDigit || c = '_' then lex_keyword_go rest (word.push c)
    else if c ∈ breakChars then (classify_word word, c :: rest)
    else (.Error .InvalidTokenError, c :: rest)

/-- `Lexer::lex_keyword_or_identifier` from lexer.rs. -/
def lex_keyword_or_identifier (cs : List Char) : TokenType × List Char :=
  lex_keyword_go cs ""

/-- `Lexer::synchronize_position` from lexer.rs: skip characters until the next
space or newline (which is not itself consumed). -/
def synchronize_position : List Char → List Char
  | [] => []
  | c :: rest => if c = ' ' ∨ c = '\n' then c :: rest else synchronize_position rest

/-- `true` exactly on lexical-error token types (models
`if let TokenType::Error(_) = token_type` in `Lexer::lex`). -/
def isLexError : TokenType → Bool
  | .Error _ => true
  | _ => false

/-- Result of running the lexer: `panic` models a Rust `panic!` reached through
`TokenType::new_operator`, `fuelOut` is fuel exhaustion of the model (the
fuel chosen by `lex` below is always sufficient, since every loop iteration
consumes at least one character). -/
inductive LexRes where
  | panic
  | fuelOut
  | ok (tokens : List Token)
deriving DecidableEq, Repr

/-- Shared continuation of the three sub-lexer branches of `Lexer::lex`: after
an error token, synchronize; advance the column by the number of characters
consumed; push the produced token. -/
def emit_scanned (input : List Char) (t : TokenType) (rest2 : List Char)
    (line token_start : Nat) (tokens : List Token) : List Char × Nat × Nat × List Token :=
  let rest3 := if isLexError t then synchronize_position rest2 else rest2
  (rest3, line, token_start + (input.length - rest3.length),
    tokens ++ [⟨t, token_start, line⟩])

/-- One iteration of the main loop of `Lexer::lex` (lexer.rs lines 41-162),
factored out of the loop: given the current character `c`, the remaining
characters, the current line, the `token_start` column and the tokens emitted
so far, produce the next lexer state, or `none` for the `panic!` reached
through `TokenType::new_operator`. -/
def lex_step (c : Char) (rest : List Char) (line token_start : Nat) (tokens : List Token) :
    Option (List Char × Nat × Nat × List Token) :=
  if c.isDigit then
    match lex_number (c :: rest) with
    | (t, rest2) => some (emit_scanned (c :: rest) t rest2 line token_start tokens)
  else if c.isAlpha then
    match lex_keyword_or_identifier (c :: rest) with
    | (t, rest2) => some (emit_scanned (c :: rest) t rest2 line token_start tokens)
  else if c = '"' ∨ c = '\'' then
    match lex_string c rest with
    | (t, rest2) => some (emit_scanned (c :: rest) t rest2 line token_start tokens)
  else if c = '+' ∨ c = '/' ∨ c = '*' ∨ c = '%' then
    match TokenType.new_operator c.toString with
    | some t => some (rest, line, token_start + 1, tokens ++ [⟨t, token_start, line⟩])
    | none => none
  else if c = '-' then
    match tokens.getLast? with
    | some previous =>
      match previous.kind with
      | .Operator _ =>
        some (rest, line, token_start + 1, tokens ++ [⟨.Unary .Neg, token_start, line⟩])
      | _ =>
        match TokenType.new_operator c.toString with
        | some t => some (rest, line, token_start + 1, tokens ++ [⟨t, token_start, line⟩])
        | none => none
    | none => some (rest, line, token_start + 1, tokens ++ [⟨.Unary .Neg, token_start, line⟩])
  else if c = '>' ∨ c = '<' then
    if rest.head? = some '=' then
      match TokenType.new_operator (c.toString ++ "=") with
      | some t => some (rest.tail, line, token_start + 2, tokens ++ [⟨t, token_start, line⟩])
      | none => none
    else
      match TokenType.new_operator c.toString with
      | some t => some (rest, line, token_start + 1, tokens ++ [⟨t, token_start, line⟩])
      | none => none
  else if c = '!' then
    if rest.head? = some '=' then
      match TokenType.new_operator "!=" with
      | some t => some (rest.tail, line, token_start + 2, tokens ++ [⟨t, token_start, line⟩])
      | none => none
    else
      some (rest, line, token_start + 1, tokens ++ [⟨.Unary .Not, token_start, line⟩])
  else if c = '=' then
    if rest.head? = some '=' then
      match TokenType.new_operator "==" with
      | some t => some (rest.tail, line, token_start + 2, tokens ++ [⟨t, token_start, line⟩])
      | none => none
    else
      some (rest, line, token_start + 1, tokens ++ [⟨.Assign, token_start, line⟩])
  else if c = '(' then
    some (rest, line, token_start + 1, tokens ++ [⟨.Lparen, token_start, line⟩])
  else if c = ')' then
    some (rest, line, token_start + 1, tokens ++ [⟨.Rparen, token_start, line⟩])
  else if c = '{' then
    some (rest, line, token_start + 1, tokens ++ [⟨.Lbrace, token_start, line⟩])
  else if c = '}' then
    some (rest, line, token_start + 1, tokens ++ [⟨.Rbrace, token_start, line⟩])
  else if c = '\r' then
    some (rest, line, token_start + 1, tokens)
  else if c = ';' then
    some (rest, line, token_start + 1, tokens ++ [⟨.StmtEnd, token_start, line⟩])
  else if c = '\n' then
    let emitted :=
      match tokens.getLast? with
      | some tk => if tk.kind = .StmtEnd then tokens else tokens ++ [⟨.StmtEnd, token_start, line⟩]
      | none => tokens ++ [⟨.StmtEnd, token_start, line⟩]
    some (rest, line + 1, 0, emitted)
  else if c = ' ' ∨ c = '\t' then
    some (rest, line, token_start + 1, tokens)
  else
    let rest3 := synchronize_position (c :: rest)
    some (rest3, line, token_start + ((c :: rest).length - rest3.length),
      tokens ++ [⟨.Error .InvalidTokenError, token_start, line⟩])

/-- Main loop of `Lexer::lex` from lexer.rs, lines 37-171: iterate `lex_step`
until the characters run out, then append the single `Eof` token. -/
def lex_loop : Nat → List Char → Nat → Nat → List Token → LexRes
  | fuel, cs, line, token_start, tokens =>
    match cs with
    | [] => .ok (tokens ++ [⟨.Eof, token_start, line⟩])
    | c :: rest =>
      match fuel with
      | 0 => .fuelOut
      | fuel + 1 =>
        match lex_step c rest line token_start tokens with
        | none => .panic
        | some (rest2, line2, ts2, tokens2) => lex_loop fuel rest2 line2 ts2 tokens2

/-- `Lexer::lex` (entry point): lex a whole source string, starting at line 1
and column 0.  The fuel `source.length + 1` is always sufficient because every
loop iteration consumes at least one character. -/
def lex (source : String) : LexRes :=
  lex_loop (source.length + 1) source.data 1 0 []

/-! ### parser.rs and errors/parse_time.rs

The parser state (`tokens`, `pos`) is passed explicitly; `consume()` is
`pos + 1`.  Where the Rust source can `panic!` (`unwrap()` on empty operand
pops, indexing an empty token vector) the model returns `PR.panic`; loops whose
termination depends on runtime data take fuel and report exhaustion as the
distinct outcome `PR.fuelOut`. -/

/-- Modelled from the spec: the expression tree of §3.  The snapshot's
src expr.rs is an earlier four-operator revision without identifiers or unary
nodes; this type follows the spec's data model, which is exactly the shape
parser.rs and executor.rs (and their tests) build and consume.  `Mod` is
omitted: the snapshot's `Operator` enum has no `Mod`, so no Mod node could
ever be constructed. -/
inductive Expr where
  | Ident (name : String)
  | Literal (l : Literal)
  | Add (a b : Expr)
  | Sub (a b : Expr)
  | Mul (a b : Expr)
  | Div (a b : Expr)
  | Greater (a b : Expr)
  | Less (a b : Expr)
  | GreaterEqual (a b : Expr)
  | LessEqual (a b : Expr)
  | Equal (a b : Expr)
  | NotEqual (a b : Expr)
  | And (a b : Expr)
  | Or (a b : Expr)
  | Not (a : Expr)
  | Negate (a : Expr)
deriving DecidableEq, Repr

/-- `Expr::new_literal`. -/
def Expr.new_literal (l : Estel.Literal) : Expr := .Literal l

/-- `Expr::new_ident`. -/
def Expr.new_ident (name : String) : Expr := .Ident name

/-- Modelled from the spec: `Expr::new_binary_op(left, right, opr)` dispatching
over every binary operator (the snapshot's expr.rs revision only has the four
arithmetic arms; parser.rs applies it to all twelve `Operator`s). -/
def Expr.new_binary_op (left right : Expr) : Operator → Expr
  | .Add => .Add left right
  | .Sub => .Sub left right
  | .Mul => .Mul left right
  | .Div => .Div left right
  | .Greater => .Greater left right
  | .Less => .Less left right
  | .GreaterEqual => .GreaterEqual left right
  | .LessEqual => .LessEqual left right
  | .Equal => .Equal left right
  | .NotEqual => .NotEqual left right
  | .And => .And left right
  | .Or => .Or left right

/-- Modelled from the spec: `Expr::new_unary_op` (parser.rs tests show `-`
builds `Negate` and `!` builds `Not`). -/
def Expr.new_unary_op (e : Expr) : Unary → Expr
  | .Neg => .Negate e
  | .Not => .Not e

/-- Modelled from the spec: the `expect` cursor of the shunting-yard loop
(§4.2, "an expect cursor (Operand | Operator)"); declared in the newer
revision of expr.rs (absent from the snapshot) and referenced by
errors/parse_time.rs. -/
inductive ExpectType where
  | Operand
  | Operator
deriving DecidableEq, Repr

/-- `ExprError` from errors/parse_time.rs. -/
inductive ExprError where
  | ExpectTokenError (expect : ExpectType) (t : Token)
  | UnterminatedParenthesis (t : Token)
deriving DecidableEq, Repr

/-- `StmtError` from errors/parse_time.rs. -/
inductive StmtError where
  | InvalidStartToken (t : Token)
  | ExpectToken (expected : TokenType) (got : Token)
  | InvalidExpression (e : ExprError)
  | ExpectedExpression (t : Token)
  | IncompleteStatement (t : Token)
  | UnterminatedParenthesis (t : Token)
  | UnterminatedBlock (t : Token)
  | UnexpectedBlockClose (t : Token)
deriving DecidableEq, Repr

/-- `StmtErrors` from errors/parse_time.rs. -/
structure StmtErrors where
  errors : List StmtError
deriving DecidableEq, Repr

/-- Modelled from the spec: the statement type of §3 in the shape parser.rs
builds it — `While(cond, Box<Stmt>)` with a boxed single-statement body and a
`None` placeholder for an empty loop body (the snapshot's stmt.rs is an
earlier revision without `While`/`Block`/`None`).  The constructor
`Stmt::Expr` is named `ExprS` here (`Expr` is the expression type). -/
inductive PStmt where
  | None
  | ExprS (e : Expr)
  | Print (e : Expr)
  | Assign (name : String) (e : Expr)
  | Reassign (name : String) (e : Expr)
  | While (cond : Expr) (body : PStmt)
  | Block (stmts : List PStmt)

/-- The `Block` the parser produces (`Block::new(stmts)` with a `stmts` field). -/
structure PBlock where
  stmts : List PStmt

/-- Outcome of a parser function: a Rust `panic!`, fuel exhaustion of the
model, or a normal return. -/
inductive PR (α : Type) where
  | panic
  | fuelOut
  | ok (a : α)
deriving DecidableEq, Repr

/-- Propagate `panic`/`fuelOut`, continue on `ok`. -/
def PR.bind {α β : Type} : PR α → (α → PR β) → PR β
  | .panic, _ => .panic
  | .fuelOut, _ => .fuelOut
  | .ok a, f => f a

/-- `Parser::get_current_token`: the token at `pos`, or the last token once
`pos` runs past the end; indexing an empty token vector panics (`none`). -/
def getCurrentToken (tokens : List Token) (pos : Nat) : Option Token :=
  if pos < tokens.length then tokens[pos]? else tokens.getLast?

/-- The `)`-reduction loop inside `Parser::make_expr` (lines 344-362): pop and
reduce until the matching `(`.  A non-`Lparen`, non-`Operator` top (a pending
unary operator) keeps popping operands without popping the operator, so the
loop panics once the operand stack empties.  Stacks are lists with the head as
top (Rust `Vec` push/pop at the end). -/
def rparen_reduce : Nat → List Token → List Expr → PR (List Token × List Expr)
  | _, [], operands => .ok ([], operands)
  | 0, _ :: _, _ => .fuelOut
  | fuel + 1, top :: ops, operands =>
    match top.kind with
    | .Lparen => .ok (ops, operands)
    | _ =>
      match operands with
      | [] => .panic
      | right :: rest =>
        match top.kind with
        | .Operator opr =>
          match rest with
          | left :: rest2 => rparen_reduce fuel ops (Expr.new_binary_op left right opr :: rest2)
          | [] => .panic
        | _ => rparen_reduce fuel (top :: ops) rest

/-- The final drain loop of `Parser::make_expr` (lines 376-394): pop the
remaining operators, reducing binaries and applying unaries.  The source's
`_ => {}` arm would loop forever; it is unreachable (the operator stack only
ever holds `Lparen`/`Operator`/`Unary` tokens) and is modelled as a panic. -/
def drain_operators : Nat → List Token → List Expr → PR (Except ExprError (Option Expr))
  | _, [], operands =>
    match operands with
    | top :: _ => .ok (.ok (some top))
    | [] => .panic
  | 0, _ :: _, _ => .fuelOut
  | fuel + 1, top :: ops, operands =>
    match top.kind with
    | .Lparen => .ok (.error (.UnterminatedParenthesis top))
    | .Operator opr =>
      match operands with
      | right :: left :: rest => drain_operators fuel ops (Expr.new_binary_op left right opr :: rest)
      | _ => .panic
    | .Unary unr =>
      match operands with
      | x :: rest => drain_operators fuel ops (Expr.new_unary_op x unr :: rest)
      | [] => .panic
    | _ => .panic

/-- Main token loop of `Parser::make_expr` (shunting yard, lines 284-365).
`ptokens`/`pos` are the parser's own token stream and cursor, used only for the
`get_current_token()` in the incomplete-expression error.  When the top of the
operator stack is a binary operator of precedence >= the incoming operator's,
exactly one reduction happens (an `if`, not a `while`); a pending unary on top
is reduced immediately and the incoming token is re-examined (`continue`). -/
def make_expr_loop : Nat → List Token → List Expr → List Token → ExpectType → List Token → Nat →
    PR (Except ExprError (Option Expr))
  | _, [], operands, operators, expect, ptokens, pos =>
    if expect = .Operand then
      match getCurrentToken ptokens pos with
      | none => .panic
      | some t => .ok (.error (.ExpectTokenError .Operand t))
    else drain_operators (operators.length + 1) operators operands
  | 0, _ :: _, _, _, _, _, _ => .fuelOut
  | fuel + 1, token :: toks, operands, operators, expect, ptokens, pos =>
    match token.kind with
    | .Literal lit =>
      if expect = .Operator then .ok (.error (.ExpectTokenError expect token))
      else make_expr_loop fuel toks (Expr.new_literal lit :: operands) operators .Operator ptokens pos
    | .Ident name =>
      if expect = .Operator then .ok (.error (.ExpectTokenError expect token))
      else make_expr_loop fuel toks (Expr.new_ident name :: operands) operators .Operator ptokens pos
    | .Operator op =>
      if expect = .Operand then .ok (.error (.ExpectTokenError expect token))
      else
        match operators with
        | top :: ops =>
          match top.kind with
          | .Operator topop =>
            if op.precedence ≤ topop.precedence then
              match operands with
              | right :: left :: rest =>
                make_expr_loop fuel toks (Expr.new_binary_op left right topop :: rest)
                  (token :: ops) .Operand ptokens pos
              | _ => .panic
            else make_expr_loop fuel toks operands (token :: top :: ops) .Operand ptokens pos
          | .Unary topu =>
            match operands with
            | right :: rest =>
              make_expr_loop fuel (token :: toks) (Expr.new_unary_op right topu :: rest) ops
                expect ptokens pos
            | [] => .panic
          | _ => make_expr_loop fuel toks operands (token :: top :: ops) .Operand ptokens pos
        | [] => make_expr_loop fuel toks operands [token] .Operand ptokens pos
    | .Unary _ =>
      if expect = .Operator then .ok (.error (.ExpectTokenError expect token))
      else make_expr_loop fuel toks operands (token :: operators) expect ptokens pos
    | .Lparen =>
      if expect = .Operator then .ok (.error (.ExpectTokenError expect token))
      else make_expr_loop fuel toks operands (token :: operators) expect ptokens pos
    | .Rparen =>
      if expect = .Operand then .ok (.error (.ExpectTokenError expect token))
      else
        match rparen_reduce (operators.length + operands.length + 1) operators operands with
        | .panic => .panic
        | .fuelOut => .fuelOut
        | .ok (operators2, operands2) => make_expr_loop fuel toks operands2 operators2 expect ptokens pos
    | _ => .ok (.error (.ExpectTokenError .Operand token))

/-- `Parser::make_expr` (lines 272-397).  The fuel bound is always sufficient:
every iteration either consumes a token or pops an operator pushed earlier. -/
def make_expr (ptokens : List Token) (pos : Nat) (toks : List Token) :
    PR (Except ExprError (Option Expr)) :=
  match toks with
  | [] => .ok (.ok none)
  | _ => make_expr_loop (2 * toks.length + 2) toks [] [] .Operand ptokens pos

/-- `Parser::check_expression`. -/
def check_expression (ptokens : List Token) (pos : Nat) :
    Except ExprError (Option Expr) → PR (Except StmtError Expr)
  | .ok (some e) => .ok (.ok e)
  | .ok none =>
    match getCurrentToken ptokens pos with
    | none => .panic
    | some t => .ok (.error (.ExpectedExpression t))
  | .error err => .ok (.error (.InvalidExpression err))

/-- `Parser::make_let_stmt`. -/
def make_let_stmt (ptokens : List Token) (pos : Nat) (toks : List Token) :
    PR (Except StmtError PStmt) :=
  if toks.length < 3 then
    match toks.head? with
    | none => .panic
    | some t => .ok (.error (.IncompleteStatement t))
  else
    match toks[1]? with
    | none => .panic
    | some t1 =>
      match t1.kind with
      | .Ident name =>
        match toks[2]? with
        | none => .panic
        | some t2 =>
          match t2.kind with
          | .Assign =>
            (make_expr ptokens pos (toks.drop 3)).bind fun r =>
            (check_expression ptokens pos r).bind fun er =>
            .ok (er.map fun e => PStmt.Assign name e)
          | _ => .ok (.error (.ExpectToken .Assign t2))
      | _ => .ok (.error (.ExpectToken (.Ident "") t1))

/-- `Parser::make_print_stmt`. -/
def make_print_stmt (ptokens : List Token) (pos : Nat) (toks : List Token) :
    PR (Except StmtError PStmt) :=
  (make_expr ptokens pos (toks.drop 1)).bind fun r =>
  (check_expression ptokens pos r).bind fun er =>
  .ok (er.map PStmt.Print)

/-- `Parser::make_ident_stmt`: a bare identifier or `IDENT <op> ...` is an
expression statement, `IDENT = expr` is a `Reassign`. -/
def make_ident_stmt (ptokens : List Token) (pos : Nat) (toks : List Token) :
    PR (Except StmtError PStmt) :=
  if toks.length = 1 then
    (make_expr ptokens pos toks).bind fun r =>
    (check_expression ptokens pos r).bind fun er =>
    .ok (er.map PStmt.ExprS)
  else
    match toks[1]? with
    | none => .panic
    | some t1 =>
      match t1.kind with
      | .Assign =>
        (make_expr ptokens pos (toks.drop 2)).bind fun r =>
        (check_expression ptokens pos r).bind fun er =>
        match toks.head? with
        | none => .panic
        | some t0 =>
          match t0.kind with
          | .Ident name => .ok (er.map (PStmt.Reassign name))
          | _ => .panic
      | _ =>
        (make_expr ptokens pos toks).bind fun r =>
        (check_expression ptokens pos r).bind fun er =>
        .ok (er.map PStmt.ExprS)

/-- `Parser::make_expr_stmt`. -/
def make_expr_stmt (ptokens : List Token) (pos : Nat) (toks : List Token) :
    PR (Except StmtError PStmt) :=
  (make_expr ptokens pos toks).bind fun r =>
  (check_expression ptokens pos r).bind fun er =>
  .ok (er.map PStmt.ExprS)

/-- `Parser::make_statement` (lines 191-202): dispatch on the first token. -/
def make_statement (ptokens : List Token) (pos : Nat) (toks : List Token) :
    PR (Except StmtError PStmt) :=
  match toks.head? with
  | none => .panic
  | some t0 =>
    match t0.kind with
    | .Keyword .Let => make_let_stmt ptokens pos toks
    | .Keyword .Print => make_print_stmt ptokens pos toks
    | .Ident _ => make_ident_stmt ptokens pos toks
    | .Literal _ => make_expr_stmt ptokens pos toks
    | .Lparen => make_expr_stmt ptokens pos toks
    | .Unary _ => make_expr_stmt ptokens pos toks
    | _ => .ok (.error (.InvalidStartToken t0))

/-- The statement-token collection loop in `Parser::make_block`'s default arm
(lines 166-176): gather tokens up to the next `StmtEnd`, stopping after a
consume when the new current token is `Eof`/`Rbrace`/`Lbrace`.  Returns the
collected tokens and the final cursor. -/
def collect_stmt_tokens : Nat → List Token → Nat → List Token → PR (List Token × Nat)
  | fuel, tokens, pos, acc =>
    match getCurrentToken tokens pos with
    | none => .panic
    | some cur =>
      if cur.kind = .StmtEnd then .ok (acc, pos)
      else
        match fuel with
        | 0 => .fuelOut
        | fuel + 1 =>
          match getCurrentToken tokens (pos + 1) with
          | none => .panic
          | some nxt =>
            if nxt.kind = .Eof ∨ nxt.kind = .Rbrace ∨ nxt.kind = .Lbrace then
              .ok (acc ++ [cur], pos + 1)
            else collect_stmt_tokens fuel tokens (pos + 1) (acc ++ [cur])

/-- The while-condition collection loop in `Parser::make_block` (lines 95-105):
gather tokens until `)`;  hitting `Eof`/`Lbrace`/`Rbrace` first returns `none`
(the caller reports `UnterminatedParenthesis`). -/
def collect_cond : Nat → List Token → Nat → List Token → PR (Option (List Token) × Nat)
  | fuel, tokens, pos, acc =>
    match getCurrentToken tokens pos with
    | none => .panic
    | some cur =>
      if cur.kind = .Rparen then .ok (some acc, pos)
      else if cur.kind = .Eof ∨ cur.kind = .Lbrace ∨ cur.kind = .Rbrace then .ok (none, pos)
      else
        match fuel with
        | 0 => .fuelOut
        | fuel + 1 => collect_cond fuel tokens (pos + 1) (acc ++ [cur])

/-- The resynchronization loop of `Parser::make_block`'s stray-`}` arm
(lines 152-158): skip to the next `StmtEnd` (or stop at `Eof`). -/
def sync_to_stmt_end : Nat → List Token → Nat → PR Nat
  | fuel, tokens, pos =>
    match getCurrentToken tokens pos with
    | none => .panic
    | some cur =>
      if cur.kind = .StmtEnd then .ok pos
      else if cur.kind = .Eof then .ok pos
      else
        match fuel with
        | 0 => .fuelOut
        | fuel + 1 => sync_to_stmt_end fuel tokens (pos + 1)

mutual

/-- `Parser::make_block` (lines 40-188): dispatch on the current token —
`{` opens a nested block, `while` a loop, a stray `}` is an error with
resynchronization, anything else is a non-block statement. -/
def make_block : Nat → List Token → Nat → PR (Except StmtErrors (Option PStmt) × Nat)
  | 0, _, _ => .fuelOut
  | fuel + 1, tokens, pos =>
    match getCurrentToken tokens pos with
    | none => .panic
    | some cur =>
      match cur.kind with
      | .Lbrace =>
        match block_loop fuel tokens (pos + 1) [] [] cur with
        | .panic => .panic
        | .fuelOut => .fuelOut
        | .ok (stmts, errors, pos2) =>
          if errors.isEmpty then .ok (.ok (some (.Block stmts)), pos2 + 1)
          else .ok (.error ⟨errors⟩, pos2 + 1)
      | .Keyword .While =>
        match getCurrentToken tokens (pos + 1) with
        | none => .panic
        | some cur1 =>
          if cur1.kind = .Lparen then
            match collect_cond fuel tokens (pos + 2) [] with
            | .panic => .panic
            | .fuelOut => .fuelOut
            | .ok (condOpt, pos2) =>
              match condOpt with
              | none => .ok (.error ⟨[.UnterminatedParenthesis cur1]⟩, pos2)
              | some condition_tokens =>
                match make_expr tokens pos2 condition_tokens with
                | .panic => .panic
                | .fuelOut => .fuelOut
                | .ok (.ok none) => .ok (.error ⟨[.ExpectedExpression cur1]⟩, pos2 + 1)
                | .ok (.error expr_error) =>
                  .ok (.error ⟨[.InvalidExpression expr_error]⟩, pos2 + 1)
                | .ok (.ok (some cond)) =>
                  match make_block fuel tokens (pos2 + 1) with
                  | .panic => .panic
                  | .fuelOut => .fuelOut
                  | .ok (.ok (some body), pos3) => .ok (.ok (some (.While cond body)), pos3)
                  | .ok (.ok .none, pos3) => .ok (.ok (some (.While cond .None)), pos3)
                  | .ok (.error errs, pos3) => .ok (.error ⟨errs.errors⟩, pos3)
          else .ok (.error ⟨[.ExpectToken .Lparen cur1]⟩, pos + 1)
      | .Rbrace =>
        match sync_to_stmt_end fuel tokens (pos + 1) with
        | .panic => .panic
        | .fuelOut => .fuelOut
        | .ok pos2 => .ok (.error ⟨[.UnexpectedBlockClose cur]⟩, pos2)
      | _ =>
        match collect_stmt_tokens fuel tokens pos [] with
        | .panic => .panic
        | .fuelOut => .fuelOut
        | .ok (stmt_tokens, pos2) =>
          if stmt_tokens.isEmpty then .ok (.ok none, pos2 + 1)
          else
            match make_statement tokens pos2 stmt_tokens with
            | .panic => .panic
            | .fuelOut => .fuelOut
            | .ok (.ok s) => .ok (.ok (some s), pos2)
            | .ok (.error err) => .ok (.error ⟨[err]⟩, pos2)

/-- The statements-until-`}` loop of the `{` arm of `Parser::make_block`
(lines 51-66): parse nested statements until the matching `}`, recording
`UnterminatedBlock` (anchored at the opening brace) if `Eof` comes first. -/
def block_loop : Nat → List Token → Nat → List PStmt → List StmtError → Token →
    PR (List PStmt × List StmtError × Nat)
  | 0, _, _, _, _, _ => .fuelOut
  | fuel + 1, tokens, pos, stmts, errors, start =>
    match getCurrentToken tokens pos with
    | none => .panic
    | some cur =>
      if cur.kind = .Rbrace then .ok (stmts, errors, pos)
      else if cur.kind = .Eof then .ok (stmts, errors ++ [.UnterminatedBlock start], pos)
      else
        match make_block fuel tokens pos with
        | .panic => .panic
        | .fuelOut => .fuelOut
        | .ok (r, pos2) =>
          match r with
          | .ok (some s) => block_loop fuel tokens pos2 (stmts ++ [s]) errors start
          | .ok none => block_loop fuel tokens pos2 stmts errors start
          | .error errs => block_loop fuel tokens pos2 stmts (errors ++ errs.errors) start

end

/-- Top-level loop of `Parser::parse` (lines 21-31): parse statements until
`Eof`, accumulating statements and errors. -/
def parse_loop : Nat → List Token → Nat → List PStmt → List StmtError →
    PR (List PStmt × List StmtError)
  | fuel, tokens, pos, stmts, errors =>
    match getCurrentToken tokens pos with
    | none => .panic
    | some cur =>
      if cur.kind = .Eof then .ok (stmts, errors)
      else
        match fuel with
        | 0 => .fuelOut
        | fuel + 1 =>
          match make_block fuel tokens pos with
          | .panic => .panic
          | .fuelOut => .fuelOut
          | .ok (r, pos2) =>
            match r with
            | .ok (some s) => parse_loop fuel tokens pos2 (stmts ++ [s]) errors
            | .ok none => parse_loop fuel tokens pos2 stmts errors
            | .error errs => parse_loop fuel tokens pos2 stmts (errors ++ errs.errors)

/-- `Parser::parse` (lines 18-38): run the statement loop, then return the
single `Block` on an error-free pass and the accumulated non-empty error list
otherwise. -/
def parse (fuel : Nat) (tokens : List Token) : PR (Except StmtErrors PBlock) :=
  match parse_loop fuel tokens 0 [] [] with
  | .panic => .panic
  | .fuelOut => .fuelOut
  | .ok (stmts, errors) =>
    if errors.isEmpty then .ok (.ok ⟨stmts⟩) else .ok (.error ⟨errors⟩)

/-! ### executor.rs -/

namespace Exec

/-- Modelled from the spec: the executor-side statement type of §3 in the shape
executor.rs consumes — `While(Expr, Vec<Stmt>)` and `Block(Vec<Stmt>)` (the
snapshot's stmt.rs is an earlier revision without them; executor.rs's own tests
build exactly these variants).  `Stmt::Expr` is named `ExprS`. -/
inductive Stmt where
  | ExprS (e : Expr)
  | Print (e : Expr)
  | Assign (name : String) (e : Expr)
  | Reassign (name : String) (e : Expr)
  | While (cond : Expr) (stmts : List Stmt)
  | Block (stmts : List Stmt)

/-- The `Block` consumed by `Executor::execute_code` (`Block::new(stmts)`). -/
structure Block where
  stmts : List Stmt

/-- `Scope` from executor.rs: a `HashMap<String, Literal>`, modelled as an
association list with unique keys (HashMap iteration order is irrelevant to
every claim; only lookups, membership and replacement matter). -/
abbrev Scope := List (String × Literal)

/-- `Scope::new`. -/
def Scope.new : Scope := []

/-- `Scope::insert_var` (`HashMap::insert`): replace the existing binding for
the key, or add one. -/
def Scope.insert_var : Scope → String → Literal → Scope
  | [], name, value => [(name, value)]
  | (k, v) :: rest, name, value =>
    if k = name then (k, value) :: rest
    else (k, v) :: Scope.insert_var rest name value

/-- `Scope::exists` (named `existsVar` here). -/
def Scope.existsVar : Scope → String → Bool
  | [], _ => false
  | (k, _) :: rest, name => k = name || Scope.existsVar rest name

/-- `Scope::get_var`. -/
def Scope.get_var : Scope → String → Option Literal
  | [], _ => none
  | (k, v) :: rest, name => if k = name then some v else Scope.get_var rest name

/-- Runtime reports the executor writes to stderr (`eprintln!`): a
`LiteralOpError` debug print, or the undefined-variable message of the
`Reassign` arm. -/
inductive Report where
  | opErr (e : LiteralOpError)
  | undefinedVar (name : String)
deriving DecidableEq, Repr

/-- `Executor` from executor.rs plus its observable output: `scopes` (index 0 =
global/outermost, last = innermost, exactly as the `Vec<Scope>` of the source)
and `print_expr_result`, with `outLog`/`errLog` modelling stdout (printed
literals) and stderr (reports). -/
structure Executor where
  scopes : List Scope
  print_expr_result : Bool
  outLog : List Literal
  errLog : List Report
deriving DecidableEq, Repr

/-- `Executor::new` (lines 14-22): the chain starts as `vec![global]`. -/
def Executor.new (print_expr_result : Bool) (global : Scope) : Executor :=
  { scopes := [global], print_expr_result := print_expr_result, outLog := [], errLog := [] }

/-- `Executor::get_var` (lines 145-152): innermost scope first (`iter().rev()`). -/
def Executor.get_var (ex : Executor) (name : String) : Option Literal :=
  ex.scopes.reverse.findSome? (fun sc => Scope.get_var sc name)

/-- Loop of `Executor::insert_if_exists` (lines 134-142) on the reversed chain
(`iter_mut().rev()`, head = innermost): mutate the first scope binding `name`;
`none` when no scope does. -/
def insert_if_exists_rev : List Scope → String → Literal → Option (List Scope)
  | [], _, _ => none
  | sc :: rest, name, value =>
    if sc.existsVar name then some (sc.insert_var name value :: rest)
    else (insert_if_exists_rev rest name value).map (fun l => sc :: l)

/-- `Executor::insert_if_exists`: the updated executor and `true` on success,
the unchanged executor and `false` otherwise. -/
def Executor.insert_if_exists (ex : Executor) (name : String) (value : Literal) :
    Executor × Bool :=
  match insert_if_exists_rev ex.scopes.reverse name value with
  | some rs => ({ ex with scopes := rs.reverse }, true)
  | none => (ex, false)

/-- `Executor::insert_var` (lines 127-130): insert into the innermost scope via
`scopes.last_mut().unwrap()` — the `unwrap` panics on an empty chain (`none`). -/
def Executor.insert_var (ex : Executor) (name : String) (value : Literal) : Option Executor :=
  match ex.scopes.getLast? with
  | none => none
  | some sc => some { ex with scopes := ex.scopes.dropLast ++ [sc.insert_var name value] }

/-- Sequence two child evaluations and combine with a `Literal` operation. -/
def bin2 (a b : Except LiteralOpError Literal)
    (f : Literal → Literal → Except LiteralOpError Literal) : Except LiteralOpError Literal :=
  match a with
  | .error e => .error e
  | .ok x =>
    match b with
    | .error e => .error e
    | .ok y => f x y

/-- Modelled from the spec: `Expr::solve` (§4.3) — a pure recursive evaluator
from an expression and the scope chain to a value or `LiteralOpError`;
variable lookup walks innermost to outermost and fails with an
undefined-variable error; operator nodes delegate to the `Literal` operations
of token.rs (§4.4).  The newer expr.rs revision holding the source of `solve`
is absent from the snapshot; executor.rs calls it as `expr.solve(self)`. -/
def solve (scopes : List Scope) : Expr → Except LiteralOpError Literal
  | .Literal l => .ok l
  | .Ident name =>
    match scopes.reverse.findSome? (fun sc => Scope.get_var sc name) with
    | some v => .ok v
    | none => .error .UndefinedVariableError
  | .Add a b => bin2 (solve scopes a) (solve scopes b) Literal.add
  | .Sub a b => bin2 (solve scopes a) (solve scopes b) Literal.sub
  | .Mul a b => bin2 (solve scopes a) (solve scopes b) Literal.mul
  | .Div a b => bin2 (solve scopes a) (solve scopes b) Literal.div
  | .Greater a b => bin2 (solve scopes a) (solve scopes b) Literal.greater
  | .Less a b => bin2 (solve scopes a) (solve scopes b) Literal.less
  | .GreaterEqual a b => bin2 (solve scopes a) (solve scopes b) Literal.greater_equal
  | .LessEqual a b => bin2 (solve scopes a) (solve scopes b) Literal.less_equal
  | .Equal a b => bin2 (solve scopes a) (solve scopes b) (fun x y => .ok (x.equal y))
  | .NotEqual a b => bin2 (solve scopes a) (solve scopes b) (fun x y => .ok (x.not_equal y))
  | .And a b => bin2 (solve scopes a) (solve scopes b) (fun x y => .ok (x.and y))
  | .Or a b => bin2 (solve scopes a) (solve scopes b) (fun x y => .ok (x.or y))
  | .Not a =>
    match solve scopes a with
    | .error e => .error e
    | .ok x => .ok x.not
  | .Negate a =>
    match solve scopes a with
    | .error e => .error e
    | .ok x => x.negate

mutual

/-- `Executor::execute_statement` (lines 50-123).  Every recursive call in this
mutual group decrements the fuel; exhausted fuel returns the current state
unchanged (a truncated run — the source may genuinely diverge on `while`
loops, and the claims proved below hold for every truncation).  `none` is a
panic (only `insert_var`'s `unwrap`). -/
def execute_statement : Nat → Executor → Stmt → Option Executor
  | 0, ex, _ => some ex
  | fuel + 1, ex, stmt =>
    match stmt with
    | .Print e =>
      match solve ex.scopes e with
      | .ok literal => some { ex with outLog := ex.outLog ++ [literal] }
      | .error err => some { ex with errLog := ex.errLog ++ [.opErr err] }
    | .Assign name e =>
      match solve ex.scopes e with
      | .ok value => ex.insert_var name value
      | .error err => some { ex with errLog := ex.errLog ++ [.opErr err] }
    | .Reassign name e =>
      match solve ex.scopes e with
      | .ok value =>
        match ex.insert_if_exists name value with
        | (ex2, true) => some ex2
        | (ex2, false) => some { ex2 with errLog := ex2.errLog ++ [.undefinedVar name] }
      | .error err => some { ex with errLog := ex.errLog ++ [.opErr err] }
    | .ExprS e =>
      match solve ex.scopes e with
      | .ok literal =>
        if ex.print_expr_result then some { ex with outLog := ex.outLog ++ [literal] }
        else some ex
      | .error err => some { ex with errLog := ex.errLog ++ [.opErr err] }
    | .While e stmts =>
      match solve ex.scopes e with
      | .ok cond => while_loop fuel ex e stmts cond
      | .error err => some { ex with errLog := ex.errLog ++ [.opErr err] }
    | .Block stmts => execute_block fuel ex stmts

/-- The statement sequence loop shared by `execute_code` and `execute_block`. -/
def execute_statements : Nat → Executor → List Stmt → Option Executor
  | _, ex, [] => some ex
  | 0, ex, _ :: _ => some ex
  | fuel + 1, ex, s :: rest =>
    match execute_statement fuel ex s with
    | none => none
    | some ex2 => execute_statements fuel ex2 rest

/-- `Executor::execute_block` (lines 33-47): push a fresh scope at the end of
the chain, run the statements, pop it. -/
def execute_block : Nat → Executor → List Stmt → Option Executor
  | 0, ex, _ => some ex
  | fuel + 1, ex, stmts =>
    match execute_statements fuel { ex with scopes := ex.scopes ++ [Scope.new] } stmts with
    | none => none
    | some ex2 => some { ex2 with scopes := ex2.scopes.dropLast }

/-- The `while cond.is_truthy()` loop of the `While` arm (lines 100-116):
run the body as a fresh block, re-evaluate the condition, repeat; a
condition-evaluation error is reported and exits the loop. -/
def while_loop : Nat → Executor → Expr → List Stmt → Literal → Option Executor
  | 0, ex, _, _, _ => some ex
  | fuel + 1, ex, e, stmts, cond =>
    if cond.is_truthy then
      match execute_block fuel ex stmts with
      | none => none
      | some ex2 =>
        match solve ex2.scopes e with
        | .ok cond2 => while_loop fuel ex2 e stmts cond2
        | .error err => some { ex2 with errLog := ex2.errLog ++ [.opErr err] }
    else some ex

end

/-- `Executor::execute_code` (lines 26-30): run a program's statements against
the executor's current chain (the global scope persists across calls). -/
def execute_code (fuel : Nat) (ex : Executor) (program : Block) : Option Executor :=
  execute_statements fuel ex program.stmts

end Exec

/-! ## Theorems -/

/-- C1: `Literal::div` (token.rs lines 190-208) has no zero-divisor check:
`5 / 0` (Number by Number) and `5.0 / 0` (Float by Number) both return
`Ok(Float(_))` — the raw f32 quotient (`inf` in Rust, the model's rational
quotient here) — and never the `DivByZeroError` runtime condition the claim
describes; that error variant of errors/run_time.rs is constructed nowhere. -/
theorem C1_div_by_zero_returns_ok :
    Literal.div (.Number 5) (.Number 0) = .ok (.Float ((5 : Rat) / (0 : Rat)))
    ∧ Literal.div (.Float 5) (.Number 0) = .ok (.Float ((5 : Rat) / (0 : Rat)))
    ∧ Literal.div (.Number 5) (.Number 0) ≠ .error .DivByZeroError
    ∧ Literal.div (.Float 5) (.Number 0) ≠ .error .DivByZeroError := by
  refine ⟨?_, ?_, ?_, ?_⟩ <;> simp [Literal.div]

/-- C2: the claim that `Lexer::lex` never panics fails on `%`: the lexer
dispatches `%` to `TokenType::new_operator("%")`, which hits the
`panic!("Invalid operator")` arm because this revision's `Operator` enum has
no `Mod` variant; no `Error` token is emitted and scanning does not continue.
`"10%3"` is the very input of the lexer's own `lex_basic_number_ops` test,
which expects an `Operator(Mod)` token. -/
theorem C2_lex_percent_panics : lex "%" = .panic ∧ lex "10%3" = .panic :=
  ⟨rfl, rfl⟩

/-- C3: `Parser::parse` can crash: on the Eof-terminated token sequence of
`(!a)` the `)`-reduction loop of `make_expr` (parser.rs lines 344-362) keeps
popping operands while a pending unary `!` sits on the operator stack — the
unary is never popped — until `operands.pop().unwrap()` panics.  The result
is a panic, not a `StmtErrors` value. -/
theorem C3_parse_paren_unary_panics :
    lex "(!a)" = .ok [⟨.Lparen, 0, 1⟩, ⟨.Unary .Not, 1, 1⟩, ⟨.Ident "a", 2, 1⟩,
      ⟨.Rparen, 3, 1⟩, ⟨.Eof, 4, 1⟩]
    ∧ parse 100 [⟨.Lparen, 0, 1⟩, ⟨.Unary .Not, 1, 1⟩, ⟨.Ident "a", 2, 1⟩,
      ⟨.Rparen, 3, 1⟩, ⟨.Eof, 4, 1⟩] = .panic :=
  ⟨rfl, rfl⟩

/-- C4: lexing the words standing alone: `let` and `print` produce keyword
tokens, but `while` produces an `Ident` token — `Keyword::new_keyword`
(token.rs lines 332-340) recognizes only `"print"` and `"let"`, even though
the lexer's own `keyword_lex` test expects `Keyword(While)`. -/
theorem C4_keyword_classification :
    lex "let" = .ok [⟨.Keyword .Let, 0, 1⟩, ⟨.Eof, 3, 1⟩]
    ∧ lex "print" = .ok [⟨.Keyword .Print, 0, 1⟩, ⟨.Eof, 5, 1⟩]
    ∧ lex "while" = .ok [⟨.Ident "while", 0, 1⟩, ⟨.Eof, 5, 1⟩] :=
  ⟨rfl, rfl, rfl⟩

/-- C5 counterexample: `make_expr` reduces at most one stacked operator per
incoming binary operator (an `if`, not a `while`), so after the
higher-precedence reduction in `1 + 2 * 3 - 4` the pending `+` stays on the
stack below `-`: the run parses as `Add(1, Sub(Mul(2,3), 4))`, not the
left-associated `Sub(Add(1, Mul(2,3)), 4)` the claim asserts. -/
theorem C5_counterexample_mixed_precedence :
    make_expr [] 0
      [⟨.Literal (.Number 1), 0, 1⟩, ⟨.Operator .Add, 2, 1⟩, ⟨.Literal (.Number 2), 4, 1⟩,
       ⟨.Operator .Mul, 6, 1⟩, ⟨.Literal (.Number 3), 8, 1⟩, ⟨.Operator .Sub, 10, 1⟩,
       ⟨.Literal (.Number 4), 12, 1⟩]
      = .ok (.ok (some (.Add (.Literal (.Number 1))
          (.Sub (.Mul (.Literal (.Number 2)) (.Literal (.Number 3))) (.Literal (.Number 4))))))
    ∧ Expr.Add (.Literal (.Number 1))
          (.Sub (.Mul (.Literal (.Number 2)) (.Literal (.Number 3))) (.Literal (.Number 4)))
        ≠ .Sub (.Add (.Literal (.Number 1)) (.Mul (.Literal (.Number 2)) (.Literal (.Number 3))))
            (.Literal (.Number 4)) :=
  ⟨rfl, by decide⟩

/-- C5 amended: when the incoming binary operator meets a stack top of equal
precedence, exactly one pop-and-reduce happens before the push, so a plain run
`x1 op1 x2 op2 x3` of two equal-precedence binary operators over literal
operands groups left-associatively: it parses as `op2(op1(x1,x2), x3)`.
(The claim's stronger behaviour — popping *as long as* precedence is ≥, which
would keep left-associativity through intervening higher-precedence
reductions — fails; see the counterexample.) -/
theorem C5_equal_precedence_left_assoc (op1 op2 : Operator)
    (h : op1.precedence = op2.precedence) (l1 l2 l3 : Literal) :
    make_expr [] 0
      [⟨.Literal l1, 0, 1⟩, ⟨.Operator op1, 1, 1⟩, ⟨.Literal l2, 2, 1⟩,
       ⟨.Operator op2, 3, 1⟩, ⟨.Literal l3, 4, 1⟩]
      = .ok (.ok (some (Expr.new_binary_op
          (Expr.new_binary_op (.Literal l1) (.Literal l2) op1) (.Literal l3) op2))) := by
  cases op1 <;> cases op2 <;> first
    | rfl
    | exact absurd h (by decide)

/-- Witness for C5: `8 - 3 - 2` (equal precedence, no intervening reduction)
parses as `(8 - 3) - 2`. -/
theorem C5_equal_precedence_left_assoc_witness :
    make_expr [] 0
      [⟨.Literal (.Number 8), 0, 1⟩, ⟨.Operator .Sub, 1, 1⟩, ⟨.Literal (.Number 3), 2, 1⟩,
       ⟨.Operator .Sub, 3, 1⟩, ⟨.Literal (.Number 2), 4, 1⟩]
      = .ok (.ok (some (Expr.new_binary_op
          (Expr.new_binary_op (.Literal (.Number 8)) (.Literal (.Number 3)) .Sub)
          (.Literal (.Number 2)) .Sub))) :=
  C5_equal_precedence_left_assoc .Sub .Sub rfl (.Number 8) (.Number 3) (.Number 2)

/-- No two adjacent statement-terminator tokens in a token list. -/
abbrev NoAdjacentStmtEnd (ts : List Token) : Prop :=
  List.Chain' (fun a b => ¬(a.kind = TokenType.StmtEnd ∧ b.kind = TokenType.StmtEnd)) ts

/-- C6 counterexample: the `;` arm of `Lexer::lex` (lines 119-122) always
emits a `StmtEnd` — the collapse check exists only in the newline arm — so
lexing `";;"` produces two adjacent `StmtEnd` tokens. -/
theorem C6_counterexample_semicolons :
    lex ";;" = .ok [⟨.StmtEnd, 0, 1⟩, ⟨.StmtEnd, 1, 1⟩, ⟨.Eof, 2, 1⟩]
    ∧ ¬ NoAdjacentStmtEnd [⟨.StmtEnd, 0, 1⟩, ⟨.StmtEnd, 1, 1⟩, ⟨.Eof, 2, 1⟩] :=
  ⟨rfl, fun h => (List.chain'_cons.mp h).1 ⟨rfl, rfl⟩⟩

/-! Helper lemmas for the amended C6: each sub-lexer leaves a suffix of its
input and never produces a `StmtEnd` token type. -/

theorem synchronize_position_suffix (cs : List Char) : synchronize_position cs <:+ cs := by
  induction cs with
  | nil => simp [synchronize_position]
  | cons c rest ih =>
    simp only [synchronize_position]
    split_ifs with h
    · exact List.suffix_refl _
    · exact ih.trans (List.suffix_cons c rest)

theorem lex_number_go_suffix : ∀ (cs : List Char) (w : String) (f : Bool),
    (lex_number_go cs w f).2 <:+ cs
  | [], _, _ => by exact List.suffix_refl _
  | c :: rest, w, f => by
    simp only [lex_number_go]
    split_ifs <;>
      first
      | exact (lex_number_go_suffix rest _ _).trans (List.suffix_cons c rest)
      | exact List.suffix_refl _

theorem lex_number_go_ne_stmtEnd : ∀ (cs : List Char) (w : String) (f : Bool),
    (lex_number_go cs w f).1 ≠ TokenType.StmtEnd
  | [], w, f => by
    simp only [lex_number_go]
    split_ifs <;> simp [TokenType.new_float_literal, TokenType.new_number_literal]
  | c :: rest, w, f => by
    simp only [lex_number_go]
    split_ifs <;>
      first
      | exact lex_number_go_ne_stmtEnd rest _ _
      | simp [TokenType.new_float_literal, TokenType.new_number_literal]

theorem lex_string_go_suffix : ∀ (cs : List Char) (q : Char) (acc : String),
    (lex_string_go cs q acc).2 <:+ cs
  | [], _, _ => by exact List.suffix_refl _
  | c :: rest, q, acc => by
    cases rest with
    | nil =>
      simp only [lex_string_go]
      split_ifs
      · exact List.suffix_cons c []
      · exact List.nil_suffix
      · exact List.nil_suffix
    | cons e rest2 =>
      simp only [lex_string_go]
      split_ifs
      · exact List.suffix_cons c (e :: rest2)
      · exact ((lex_string_go_suffix rest2 q _).trans (List.suffix_cons e rest2)).trans
          (List.suffix_cons c (e :: rest2))
      · exact (lex_string_go_suffix (e :: rest2) q _).trans (List.suffix_cons c (e :: rest2))

theorem lex_string_go_ne_stmtEnd : ∀ (cs : List Char) (q : Char) (acc : String),
    (lex_string_go cs q acc).1 ≠ TokenType.StmtEnd
  | [], _, _ => by intro hcon; cases hcon
  | c :: rest, q, acc => by
    cases rest with
    | nil =>
      simp only [lex_string_go]
      split_ifs
      · simp [TokenType.new_string_literal]
      · simp
      · simp [lex_string_go]
    | cons e rest2 =>
      simp only [lex_string_go]
      split_ifs
      · simp [TokenType.new_string_literal]
      · exact lex_string_go_ne_stmtEnd rest2 q _
      · exact lex_string_go_ne_stmtEnd (e :: rest2) q _

theorem classify_word_ne_stmtEnd (w : String) : classify_word w ≠ TokenType.StmtEnd := by
  unfold classify_word
  cases hk : Keyword.new_keyword w with
  | some k => simp
  | none =>
    split_ifs with h1 h2
    · rcases h1 with h | h <;> subst h <;> decide
    · simp
    · simp

theorem lex_keyword_go_suffix : ∀ (cs : List Char) (w : String),
    (lex_keyword_go cs w).2 <:+ cs
  | [], _ => by exact List.suffix_refl _
  | c :: rest, w => by
    simp only [lex_keyword_go]
    split_ifs <;>
      first
      | exact (lex_keyword_go_suffix rest _).trans (List.suffix_cons c rest)
      | exact List.suffix_refl _

theorem lex_keyword_go_ne_stmtEnd : ∀ (cs : List Char) (w : String),
    (lex_keyword_go cs w).1 ≠ TokenType.StmtEnd
  | [], w => by
    simp only [lex_keyword_go]
    exact classify_word_ne_stmtEnd w
  | c :: rest, w => by
    simp only [lex_keyword_go]
    split_ifs <;>
      first
      | exact lex_keyword_go_ne_stmtEnd rest _
      | exact classify_word_ne_stmtEnd w
      | simp

theorem new_operator_ne_stmtEnd (s : String) (t : TokenType)
    (h : TokenType.new_operator s = some t) : t ≠ TokenType.StmtEnd := by
  unfold TokenType.new_operator at h
  split at h <;> cases h <;> simp

/-- Appending a non-`StmtEnd` token preserves the no-adjacent invariant. -/
theorem noAdj_concat_ne (l : List Token) (t : Token) (hl : NoAdjacentStmtEnd l)
    (ht : t.kind ≠ TokenType.StmtEnd) : NoAdjacentStmtEnd (l ++ [t]) := by
  rw [NoAdjacentStmtEnd, List.chain'_append]
  refine ⟨hl, List.chain'_singleton _, ?_⟩
  intro x _ y hy
  simp only [List.head?_cons, Option.mem_def, Option.some.injEq] at hy
  subst hy
  exact fun hc => ht hc.2

/-- Appending any token after a non-`StmtEnd` last token preserves the
invariant. -/
theorem noAdj_concat_lastne (l : List Token) (t : Token) (hl : NoAdjacentStmtEnd l)
    (hlast : ∀ x, l.getLast? = some x → x.kind ≠ TokenType.StmtEnd) :
    NoAdjacentStmtEnd (l ++ [t]) := by
  rw [NoAdjacentStmtEnd, List.chain'_append]
  refine ⟨hl, List.chain'_singleton _, ?_⟩
  intro x hx y hy
  simp only [List.head?_cons, Option.mem_def, Option.some.injEq] at hy
  subst hy
  exact fun hc => hlast x (by simpa using hx) hc.1

/-- The shared sub-lexer continuation preserves the invariant: the remainder
is a suffix of the input and the pushed token is not a `StmtEnd`. -/
theorem emit_scanned_invariant (input : List Char) (t : TokenType) (rest2 : List Char)
    (line ts : Nat) (tokens : List Token) (hmem : ';' ∉ input) (hsuf : rest2 <:+ input)
    (hne : t ≠ TokenType.StmtEnd) (hacc : NoAdjacentStmtEnd tokens) :
    ';' ∉ (emit_scanned input t rest2 line ts tokens).1
    ∧ NoAdjacentStmtEnd (emit_scanned input t rest2 line ts tokens).2.2.2 := by
  unfold emit_scanned
  refine ⟨?_, noAdj_concat_ne _ _ hacc hne⟩
  dsimp only
  split_ifs
  · exact fun hm => hmem (((synchronize_position_suffix rest2).trans hsuf).subset hm)
  · exact fun hm => hmem (hsuf.subset hm)

set_option maxHeartbeats 1600000 in
/-- A single lexer step from a non-`;` character preserves the no-adjacent
invariant and yields a `;`-free remainder: a `StmtEnd` is emitted only by the
`\n` arm, which first checks that the last emitted token is not a `StmtEnd`. -/
theorem lex_step_invariant (c : Char) (rest : List Char) (line ts : Nat)
    (tokens : List Token) (r : List Char × Nat × Nat × List Token)
    (hmem : ';' ∉ c :: rest) (hacc : NoAdjacentStmtEnd tokens)
    (h : lex_step c rest line ts tokens = some r) :
    ';' ∉ r.1 ∧ NoAdjacentStmtEnd r.2.2.2 := by
  have hcs : c ≠ ';' := fun hc => hmem (by simp [hc])
  have hrest : ';' ∉ rest := fun hr => hmem (by simp [hr])
  unfold lex_step at h
  by_cases h1 : c.isDigit = true
  -- digit: lex_number
  · rw [if_pos h1] at h
    rcases hn : lex_number (c :: rest) with ⟨t1, r1⟩
    rw [hn] at h
    have hsuf : r1 <:+ c :: rest := by
      have := lex_number_go_suffix (c :: rest) "" false
      rw [show lex_number_go (c :: rest) "" false = lex_number (c :: rest) from rfl, hn] at this
      exact this
    have hne : t1 ≠ TokenType.StmtEnd := by
      have := lex_number_go_ne_stmtEnd (c :: rest) "" false
      rw [show lex_number_go (c :: rest) "" false = lex_number (c :: rest) from rfl, hn] at this
      exact this
    cases h
    exact emit_scanned_invariant _ _ _ _ _ _ hmem hsuf hne hacc
  rw [if_neg h1] at h
  by_cases h2 : c.isAlpha = true
  -- alpha: lex_keyword_or_identifier
  · rw [if_pos h2] at h
    rcases hn : lex_keyword_or_identifier (c :: rest) with ⟨t1, r1⟩
    rw [hn] at h
    have hsuf : r1 <:+ c :: rest := by
      have := lex_keyword_go_suffix (c :: rest) ""
      rw [show lex_keyword_go (c :: rest) "" = lex_keyword_or_identifier (c :: rest) from rfl,
        hn] at this
      exact this
    have hne : t1 ≠ TokenType.StmtEnd := by
      have := lex_keyword_go_ne_stmtEnd (c :: rest) ""
      rw [show lex_keyword_go (c :: rest) "" = lex_keyword_or_identifier (c :: rest) from rfl,
        hn] at this
      exact this
    cases h
    exact emit_scanned_invariant _ _ _ _ _ _ hmem hsuf hne hacc
  rw [if_neg h2] at h
  by_cases h3 : c = '"' ∨ c = '\''
  -- quote: lex_string
  · rw [if_pos h3] at h
    rcases hn : lex_string c rest with ⟨t1, r1⟩
    rw [hn] at h
    have hsuf : r1 <:+ c :: rest := by
      have := lex_string_go_suffix rest c ""
      rw [show lex_string_go rest c "" = lex_string c rest from rfl, hn] at this
      exact this.trans (List.suffix_cons c rest)
    have hne : t1 ≠ TokenType.StmtEnd := by
      have := lex_string_go_ne_stmtEnd rest c ""
      rw [show lex_string_go rest c "" = lex_string c rest from rfl, hn] at this
      exact this
    cases h
    exact emit_scanned_invariant _ _ _ _ _ _ hmem hsuf hne hacc
  rw [if_neg h3] at h
  by_cases h4 : c = '+' ∨ c = '/' ∨ c = '*' ∨ c = '%'
  -- single-char operators + / * %
  · rw [if_pos h4] at h
    rcases hop : TokenType.new_operator c.toString with _ | t1 <;> rw [hop] at h
    · cases h
    · cases h
      exact ⟨hrest, noAdj_concat_ne _ _ hacc (new_operator_ne_stmtEnd _ _ hop)⟩
  rw [if_neg h4] at h
  by_cases h5 : c = '-'
  -- minus: unary or binary
  · rw [if_pos h5] at h
    rcases hlast : tokens.getLast? with _ | prev <;> rw [hlast] at h
    · cases h
      exact ⟨hrest, noAdj_concat_ne _ _ hacc (by simp)⟩
    · dsimp only at h
      rcases hpk : prev.kind <;> rw [hpk] at h <;>
        first
        | (cases h; exact ⟨hrest, noAdj_concat_ne _ _ hacc (by simp)⟩)
        | (rcases hop : TokenType.new_operator c.toString with _ | t1 <;> rw [hop] at h <;>
            first
            | (cases h
               exact ⟨hrest, noAdj_concat_ne _ _ hacc (new_operator_ne_stmtEnd _ _ hop)⟩)
            | cases h)
  rw [if_neg h5] at h
  by_cases h6 : c = '>' ∨ c = '<'
  -- greater / less
  · rw [if_pos h6] at h
    split_ifs at h
    · rcases hop : TokenType.new_operator (c.toString ++ "=") with _ | t1 <;> rw [hop] at h
      · cases h
      · cases h
        exact ⟨fun hm => hrest (List.mem_of_mem_tail hm),
          noAdj_concat_ne _ _ hacc (new_operator_ne_stmtEnd _ _ hop)⟩
    · rcases hop : TokenType.new_operator c.toString with _ | t1 <;> rw [hop] at h
      · cases h
      · cases h
        exact ⟨hrest, noAdj_concat_ne _ _ hacc (new_operator_ne_stmtEnd _ _ hop)⟩
  rw [if_neg h6] at h
  by_cases h7 : c = '!'
  -- bang
  · rw [if_pos h7] at h
    split_ifs at h
    · rcases hop : TokenType.new_operator "!=" with _ | t1 <;> rw [hop] at h
      · cases h
      · cases h
        exact ⟨fun hm => hrest (List.mem_of_mem_tail hm),
          noAdj_concat_ne _ _ hacc (new_operator_ne_stmtEnd _ _ hop)⟩
    · cases h
      exact ⟨hrest, noAdj_concat_ne _ _ hacc (by simp)⟩
  rw [if_neg h7] at h
  by_cases h8 : c = '='
  -- equals
  · rw [if_pos h8] at h
    split_ifs at h
    · rcases hop : TokenType.new_operator "==" with _ | t1 <;> rw [hop] at h
      · cases h
      · cases h
        exact ⟨fun hm => hrest (List.mem_of_mem_tail hm),
          noAdj_concat_ne _ _ hacc (new_operator_ne_stmtEnd _ _ hop)⟩
    · cases h
      exact ⟨hrest, noAdj_concat_ne _ _ hacc (by simp)⟩
  rw [if_neg h8] at h
  by_cases h9 : c = '('
  · rw [if_pos h9] at h
    cases h
    exact ⟨hrest, noAdj_concat_ne _ _ hacc (by simp)⟩
  rw [if_neg h9] at h
  by_cases h10 : c = ')'
  · rw [if_pos h10] at h
    cases h
    exact ⟨hrest, noAdj_concat_ne _ _ hacc (by simp)⟩
  rw [if_neg h10] at h
  by_cases h11 : c = '\x7b'
  · rw [if_pos h11] at h
    cases h
    exact ⟨hrest, noAdj_concat_ne _ _ hacc (by simp)⟩
  rw [if_neg h11] at h
  by_cases h12 : c = '\x7d'
  · rw [if_pos h12] at h
    cases h
    exact ⟨hrest, noAdj_concat_ne _ _ hacc (by simp)⟩
  rw [if_neg h12] at h
  by_cases h13 : c = '\r'
  · rw [if_pos h13] at h
    cases h
    exact ⟨hrest, hacc⟩
  rw [if_neg h13] at h
  -- semicolon: impossible, the input has no ';'
  rw [if_neg (show ¬c = ';' from hcs)] at h
  by_cases h15 : c = '\n'
  -- newline
  · rw [if_pos h15] at h
    rcases hlast : tokens.getLast? with _ | tk <;> rw [hlast] at h
    · cases h
      exact ⟨hrest,
        noAdj_concat_lastne _ _ hacc (fun x hx => by rw [hlast] at hx; cases hx)⟩
    · dsimp only at h
      split_ifs at h with htk
      · cases h
        exact ⟨hrest, hacc⟩
      · cases h
        exact ⟨hrest,
          noAdj_concat_lastne _ _ hacc
            (fun x hx => by rw [hlast] at hx; cases hx; exact htk)⟩
  rw [if_neg h15] at h
  by_cases h16 : c = ' ' ∨ c = '\t'
  -- space / tab
  · rw [if_pos h16] at h
    cases h
    exact ⟨hrest, hacc⟩
  rw [if_neg h16] at h
  -- unrecognized character: error token + synchronize
  cases h
  refine ⟨?_, noAdj_concat_ne _ _ hacc (by simp)⟩
  exact fun hm => hmem ((synchronize_position_suffix (c :: rest)).subset hm)

/-- One-step unfolding of `lex_loop` in its running case. -/
theorem lex_loop_succ_cons (fuel : Nat) (c : Char) (rest : List Char) (line ts : Nat)
    (tokens : List Token) :
    lex_loop (fuel + 1) (c :: rest) line ts tokens
      = match lex_step c rest line ts tokens with
        | none => .panic
        | some (rest2, line2, ts2, tokens2) => lex_loop fuel rest2 line2 ts2 tokens2 := rfl

/-- Invariant of the main lexer loop: starting from an accumulator without
adjacent `StmtEnd`s, an input without `;` can only produce a token list
without adjacent `StmtEnd`s. -/
theorem lex_loop_no_adjacent : ∀ (fuel : Nat) (cs : List Char) (line ts : Nat)
    (acc out : List Token), ';' ∉ cs → NoAdjacentStmtEnd acc →
    lex_loop fuel cs line ts acc = .ok out → NoAdjacentStmtEnd out := by
  intro fuel
  induction fuel with
  | zero =>
    intro cs line ts acc out _ hacc h
    cases cs with
    | nil =>
      cases (show LexRes.ok (acc ++ [⟨TokenType.Eof, ts, line⟩]) = LexRes.ok out from h)
      exact noAdj_concat_ne _ _ hacc (by simp)
    | cons c rest => exact LexRes.noConfusion (show LexRes.fuelOut = LexRes.ok out from h)
  | succ fuel ih =>
    intro cs line ts acc out hs hacc h
    cases cs with
    | nil =>
      cases (show LexRes.ok (acc ++ [⟨TokenType.Eof, ts, line⟩]) = LexRes.ok out from h)
      exact noAdj_concat_ne _ _ hacc (by simp)
    | cons c rest =>
      rw [lex_loop_succ_cons] at h
      rcases hstep : lex_step c rest line ts acc with _ | ⟨rest2, line2, ts2, tokens2⟩ <;>
        rw [hstep] at h
      · exact LexRes.noConfusion h
      · obtain ⟨hmem2, hchain2⟩ := lex_step_invariant c rest line ts acc _ hs hacc hstep
        exact ih rest2 line2 ts2 tokens2 out hmem2 hchain2 h

/-- C6 amended: only the newline arm collapses terminators, so for every input
containing no `;` character the lexed token stream has no two adjacent
`StmtEnd` tokens (blank lines collapse); `;;` breaks the original claim. -/
theorem C6_no_adjacent_stmtend_semifree (s : String) (out : List Token)
    (hsemi : ';' ∉ s.data) (h : lex s = .ok out) : NoAdjacentStmtEnd out :=
  lex_loop_no_adjacent (s.length + 1) s.data 1 0 [] out hsemi (by simp) h

/-- Witness for C6: two blank lines collapse to a single terminator, and the
resulting stream has no adjacent `StmtEnd`s. -/
theorem C6_no_adjacent_stmtend_semifree_witness :
    NoAdjacentStmtEnd [⟨.StmtEnd, 0, 1⟩, ⟨.Eof, 0, 3⟩] :=
  C6_no_adjacent_stmtend_semifree "\n\n" _ (by decide) rfl

/-! ## Parser all-or-nothing (C9) -/

/-- C9 counterexample: on the Eof-terminated token sequence of `(!b)`,
`Parser::parse` does not return at all — the `)`-reduction loop of `make_expr`
panics on the pending unary (the C3 defect) — so the universal claim that
`parse` always returns `Ok` or a non-empty `Err` is false as stated. -/
theorem C9_counterexample_panic :
    parse 100 [⟨.Lparen, 0, 1⟩, ⟨.Unary .Not, 1, 1⟩, ⟨.Ident "b", 2, 1⟩,
      ⟨.Rparen, 3, 1⟩, ⟨.Eof, 4, 1⟩] = .panic := rfl

/-- C9 amended: whenever `Parser::parse` returns normally, the result is
all-or-nothing — either `Ok` with one `Block` (exactly when the accumulated
error list of the pass is empty) or `Err` with a non-empty error list; never a
partial AST together with errors and never an empty error list. -/
theorem C9_parse_error_list_nonempty (fuel : Nat) (tokens : List Token)
    (res : Except StmtErrors PBlock) (h : parse fuel tokens = .ok res) :
    (∃ b, res = .ok b) ∨ ∃ errs, res = .error errs ∧ errs.errors ≠ [] := by
  unfold parse at h
  rcases hpl : parse_loop fuel tokens 0 [] [] with _ | _ | ⟨stmts, errors⟩ <;> rw [hpl] at h
  · cases h
  · cases h
  · dsimp only at h
    by_cases he : errors.isEmpty = true
    · rw [if_pos he] at h
      cases h
      exact Or.inl ⟨⟨stmts⟩, rfl⟩
    · rw [if_neg he] at h
      cases h
      exact Or.inr ⟨⟨errors⟩, rfl, fun hnil => he (by simp [show errors = [] from hnil])⟩

/-- Witness for C9: the tokens of `let;` parse to a normal return whose value
is an `Err` holding the single (non-empty) `IncompleteStatement` error. -/
theorem C9_parse_error_list_nonempty_witness :
    (∃ b, (Except.error ⟨[.IncompleteStatement ⟨.Keyword .Let, 0, 1⟩]⟩ :
        Except StmtErrors PBlock) = .ok b)
    ∨ ∃ errs, (Except.error ⟨[.IncompleteStatement ⟨.Keyword .Let, 0, 1⟩]⟩ :
        Except StmtErrors PBlock) = .error errs ∧ errs.errors ≠ [] :=
  C9_parse_error_list_nonempty 100
    [⟨.Keyword .Let, 0, 1⟩, ⟨.StmtEnd, 3, 1⟩, ⟨.Eof, 4, 1⟩]
    (Except.error ⟨[.IncompleteStatement ⟨.Keyword .Let, 0, 1⟩]⟩) rfl

/-! ## Executor invariants (C7, C8, C10) -/

namespace Exec

/-- `Executor::insert_var` succeeds on a non-empty chain and preserves its
length (the innermost scope is replaced in place). -/
theorem insert_var_some (ex : Executor) (name : String) (v : Literal)
    (hne : ex.scopes ≠ []) :
    ∃ ex2, ex.insert_var name v = some ex2 ∧ ex2.scopes.length = ex.scopes.length := by
  rcases hl : ex.scopes.getLast? with _ | sc
  · have : ex.scopes = [] := by simpa using hl
    exact absurd this hne
  · refine ⟨{ ex with scopes := ex.scopes.dropLast ++ [sc.insert_var name v] }, ?_, ?_⟩
    · simp only [Executor.insert_var, hl]
    · have hpos : 0 < ex.scopes.length := List.length_pos.mpr hne
      simp only [List.length_append, List.length_dropLast, List.length_cons,
        List.length_nil]
      omega

/-- The `insert_if_exists` loop returns a chain of the same length. -/
theorem insert_if_exists_rev_length : ∀ (l : List Scope) (name : String) (v : Literal)
    (rs : List Scope), insert_if_exists_rev l name v = some rs → rs.length = l.length
  | [], _, _, _, h => by cases h
  | sc :: rest, name, v, rs, h => by
    rw [insert_if_exists_rev] at h
    split_ifs at h with hv
    · cases h
      simp
    · rcases hr : insert_if_exists_rev rest name v with _ | rs2 <;> rw [hr] at h
      · cases h
      · cases h
        simp [insert_if_exists_rev_length rest name v rs2 hr]

/-- `Executor::insert_if_exists` preserves the scope-chain length whether or
not the variable was found. -/
theorem insert_if_exists_fst_length (ex : Executor) (name : String) (v : Literal) :
    ((ex.insert_if_exists name v).1).scopes.length = ex.scopes.length := by
  unfold Executor.insert_if_exists
  rcases hr : insert_if_exists_rev ex.scopes.reverse name v with _ | rs
  · rfl
  · dsimp only
    have h := insert_if_exists_rev_length _ name v rs hr
    rw [List.length_reverse] at h
    rw [List.length_reverse]
    exact h

/-- When no scope binds the name, the `insert_if_exists` loop reports failure. -/
theorem insert_if_exists_rev_none : ∀ (l : List Scope) (name : String) (v : Literal),
    (∀ sc ∈ l, sc.existsVar name = false) → insert_if_exists_rev l name v = none
  | [], _, _, _ => rfl
  | sc :: rest, name, v, h => by
    rw [insert_if_exists_rev]
    have hsc : ¬ sc.existsVar name = true := by simp [h sc (by simp)]
    rw [if_neg hsc, insert_if_exists_rev_none rest name v (fun s hs => h s (by simp [hs]))]
    rfl

/-- The `insert_if_exists` loop mutates exactly the first scope (in iteration
order) that binds the name, leaving every other scope unchanged. -/
theorem insert_if_exists_rev_found : ∀ (l1 : List Scope) (sc : Scope) (l2 : List Scope)
    (name : String) (v : Literal),
    (∀ s ∈ l1, s.existsVar name = false) → sc.existsVar name = true →
    insert_if_exists_rev (l1 ++ sc :: l2) name v =
      some (l1 ++ sc.insert_var name v :: l2)
  | [], sc, l2, name, v, _, hsc => by
    rw [List.nil_append, insert_if_exists_rev, if_pos hsc, List.nil_append]
  | s :: l1, sc, l2, name, v, h, hsc => by
    rw [List.cons_append, insert_if_exists_rev]
    have hs : ¬ s.existsVar name = true := by simp [h s (by simp)]
    rw [if_neg hs,
      insert_if_exists_rev_found l1 sc l2 name v (fun x hx => h x (by simp [hx])) hsc]
    rfl

/-- A chain of equal positive length is non-empty. -/
theorem scopes_ne_of_length_eq {ex2 ex : Executor}
    (hl : ex2.scopes.length = ex.scopes.length) (hne : ex.scopes ≠ []) :
    ex2.scopes ≠ [] := by
  intro hc
  rw [hc, List.length_nil] at hl
  have hpos : 0 < ex.scopes.length := List.length_pos.mpr hne
  omega

/-- The scope-chain length invariant of the executor, proved for every fuel by
one induction over the mutual group: statement and statement-list execution
need a non-empty chain (for `insert_var`) and return it with the same length;
block and while-loop execution preserve the length unconditionally (the block
provides its own pushed scope). -/
theorem exec_preserves_length : ∀ fuel : Nat,
    (∀ ex stmt, ex.scopes ≠ [] →
      ∃ ex2, execute_statement fuel ex stmt = some ex2 ∧
        ex2.scopes.length = ex.scopes.length)
    ∧ (∀ ex stmts, ex.scopes ≠ [] →
      ∃ ex2, execute_statements fuel ex stmts = some ex2 ∧
        ex2.scopes.length = ex.scopes.length)
    ∧ (∀ ex stmts,
      ∃ ex2, execute_block fuel ex stmts = some ex2 ∧
        ex2.scopes.length = ex.scopes.length)
    ∧ (∀ ex e stmts cond,
      ∃ ex2, while_loop fuel ex e stmts cond = some ex2 ∧
        ex2.scopes.length = ex.scopes.length) := by
  intro fuel
  induction fuel with
  | zero =>
    refine ⟨fun ex stmt _ => ⟨ex, rfl, rfl⟩, fun ex stmts _ => ?_,
      fun ex stmts => ⟨ex, rfl, rfl⟩, fun ex e stmts cond => ⟨ex, rfl, rfl⟩⟩
    cases stmts with
    | nil => exact ⟨ex, rfl, rfl⟩
    | cons s rest => exact ⟨ex, rfl, rfl⟩
  | succ fuel ih =>
    obtain ⟨ihStmt, ihStmts, ihBlock, ihWhile⟩ := ih
    refine ⟨?_, ?_, ?_, ?_⟩
    · intro ex stmt hne
      cases stmt with
      | Print e =>
        rcases hs : solve ex.scopes e with err | lit
        · exact ⟨{ ex with errLog := ex.errLog ++ [.opErr err] },
            by simp only [execute_statement, hs], rfl⟩
        · exact ⟨{ ex with outLog := ex.outLog ++ [lit] },
            by simp only [execute_statement, hs], rfl⟩
      | Assign name e =>
        rcases hs : solve ex.scopes e with err | lit
        · exact ⟨{ ex with errLog := ex.errLog ++ [.opErr err] },
            by simp only [execute_statement, hs], rfl⟩
        · obtain ⟨ex2, h2, hl⟩ := insert_var_some ex name lit hne
          exact ⟨ex2, by simp only [execute_statement, hs]; exact h2, hl⟩
      | Reassign name e =>
        rcases hs : solve ex.scopes e with err | lit
        · exact ⟨{ ex with errLog := ex.errLog ++ [.opErr err] },
            by simp only [execute_statement, hs], rfl⟩
        · have hlen := insert_if_exists_fst_length ex name lit
          rcases hie : ex.insert_if_exists name lit with ⟨ex2, b⟩
          rw [hie] at hlen
          cases b
          · exact ⟨{ ex2 with errLog := ex2.errLog ++ [.undefinedVar name] },
              by simp only [execute_statement, hs, hie], hlen⟩
          · exact ⟨ex2, by simp only [execute_statement, hs, hie], hlen⟩
      | ExprS e =>
        rcases hs : solve ex.scopes e with err | lit
        · exact ⟨{ ex with errLog := ex.errLog ++ [.opErr err] },
            by simp only [execute_statement, hs], rfl⟩
        · by_cases hp : ex.print_expr_result = true
          · exact ⟨{ ex with outLog := ex.outLog ++ [lit] },
              by simp only [execute_statement, hs, if_pos hp], rfl⟩
          · exact ⟨ex, by simp only [execute_statement, hs, if_neg hp], rfl⟩
      | While e stmts =>
        rcases hs : solve ex.scopes e with err | lit
        · exact ⟨{ ex with errLog := ex.errLog ++ [.opErr err] },
            by simp only [execute_statement, hs], rfl⟩
        · obtain ⟨ex2, h2, hl⟩ := ihWhile ex e stmts lit
          exact ⟨ex2, by simp only [execute_statement, hs]; exact h2, hl⟩
      | Block stmts =>
        obtain ⟨ex2, h2, hl⟩ := ihBlock ex stmts
        exact ⟨ex2, by simp only [execute_statement]; exact h2, hl⟩
    · intro ex stmts hne
      cases stmts with
      | nil => exact ⟨ex, rfl, rfl⟩
      | cons s rest =>
        obtain ⟨ex2, h2, hl2⟩ := ihStmt ex s hne
        obtain ⟨ex3, h3, hl3⟩ := ihStmts ex2 rest (scopes_ne_of_length_eq hl2 hne)
        exact ⟨ex3, by simp only [execute_statements, h2]; exact h3, hl3.trans hl2⟩
    · intro ex stmts
      have hne2 : ({ ex with scopes := ex.scopes ++ [Scope.new] } : Executor).scopes ≠ [] := by
        simp
      obtain ⟨ex2, h2, hl2⟩ := ihStmts { ex with scopes := ex.scopes ++ [Scope.new] } stmts hne2
      refine ⟨{ ex2 with scopes := ex2.scopes.dropLast }, ?_, ?_⟩
      · simp only [execute_block, h2]
      · simp only [List.length_append, List.length_cons, List.length_nil] at hl2
        simp only [List.length_dropLast]
        omega
    · intro ex e stmts cond
      by_cases hc : cond.is_truthy = true
      · obtain ⟨ex2, h2, hl2⟩ := ihBlock ex stmts
        rcases hs : solve ex2.scopes e with err | cond2
        · exact ⟨{ ex2 with errLog := ex2.errLog ++ [.opErr err] },
            by simp only [while_loop, if_pos hc, h2, hs], hl2⟩
        · obtain ⟨ex3, h3, hl3⟩ := ihWhile ex2 e stmts cond2
          exact ⟨ex3, by simp only [while_loop, if_pos hc, h2, hs]; exact h3, hl3.trans hl2⟩
      · exact ⟨ex, by simp only [while_loop, if_neg hc], rfl⟩

end Exec

open Exec in
/-- C7: executing a `Block` statement always returns (no panic) with the
scope-chain length restored — `execute_block` pushes exactly one fresh scope,
runs the body against it and pops it — and, concretely, the claim's program
`let a = 3; { let a = 5; let b = a; }` ends with the outer scope mapping `a`
to 3 and holding no binding for `b` (the block's bindings are discarded). -/
theorem C7_block_scoping :
    (∀ (fuel : Nat) (ex : Executor) (stmts : List Stmt),
      ∃ ex2, execute_statement (fuel + 1) ex (.Block stmts) = some ex2 ∧
        ex2.scopes.length = ex.scopes.length)
    ∧ execute_code 50 (Executor.new false Scope.new)
        ⟨[.Assign "a" (.Literal (.Number 3)),
          .Block [.Assign "a" (.Literal (.Number 5)), .Assign "b" (.Ident "a")]]⟩ =
      some { scopes := [[("a", Literal.Number 3)]], print_expr_result := false,
             outLog := [], errLog := [] } := by
  constructor
  · intro fuel ex stmts
    obtain ⟨ex2, h2, hl⟩ := (exec_preserves_length fuel).2.2.1 ex stmts
    exact ⟨ex2, by simp only [execute_statement]; exact h2, hl⟩
  · rfl

open Exec in
/-- C8: executing `Reassign(name, e)` whose expression evaluates to `v`
mutates exactly the innermost scope binding `name` — the chain splits as
`pre ++ sc :: post` with no scope of `post` (the more-inner scopes) binding
`name` — and leaves every other scope unchanged; when no scope binds `name`,
an undefined-variable report is appended and the chain is returned entirely
unchanged, with no new binding created anywhere. -/
theorem C8_reassign_semantics (fuel : Nat) (ex : Executor) (name : String) (e : Expr)
    (v : Literal) (hv : solve ex.scopes e = .ok v) :
    ((∀ sc ∈ ex.scopes, sc.existsVar name = false) →
      execute_statement (fuel + 1) ex (.Reassign name e) =
        some { ex with errLog := ex.errLog ++ [.undefinedVar name] })
    ∧ (∀ pre sc post, ex.scopes = pre ++ sc :: post → sc.existsVar name = true →
        (∀ s ∈ post, s.existsVar name = false) →
        execute_statement (fuel + 1) ex (.Reassign name e) =
          some { ex with scopes := pre ++ sc.insert_var name v :: post }) := by
  constructor
  · intro hall
    have hnone : insert_if_exists_rev ex.scopes.reverse name v = none :=
      insert_if_exists_rev_none _ _ _ (fun s hs => hall s (List.mem_reverse.mp hs))
    simp only [execute_statement, hv, Executor.insert_if_exists, hnone]
  · intro pre sc post hsplit hsc hpost
    have hrev : ex.scopes.reverse = post.reverse ++ sc :: pre.reverse := by
      rw [hsplit]
      simp
    have hfound : insert_if_exists_rev ex.scopes.reverse name v =
        some (post.reverse ++ sc.insert_var name v :: pre.reverse) := by
      rw [hrev]
      exact insert_if_exists_rev_found _ _ _ _ _
        (fun s hs => hpost s (List.mem_reverse.mp hs)) hsc
    simp only [execute_statement, hv, Executor.insert_if_exists, hfound]
    simp [List.reverse_append]

open Exec in
/-- Witness for C8: on a one-scope chain binding `x` to 1, `x = 5` rewrites
the binding in place; and on the same chain, `y = 5` leaves the chain
unchanged and reports the undefined variable. -/
theorem C8_reassign_semantics_witness :
    execute_statement 5
      { scopes := [[("x", Literal.Number 1)]], print_expr_result := false,
        outLog := [], errLog := [] }
      (.Reassign "x" (.Literal (.Number 5))) =
    some { scopes := [[("x", Literal.Number 5)]], print_expr_result := false,
           outLog := [], errLog := [] } := by
  have h := (C8_reassign_semantics 4
      { scopes := [[("x", Literal.Number 1)]], print_expr_result := false,
        outLog := [], errLog := [] } "x" (.Literal (.Number 5)) (.Number 5) rfl).2
      [] [("x", Literal.Number 1)] [] rfl rfl (fun s hs => by cases hs)
  exact h

open Exec in
/-- C10: the scope chain is never empty — `Executor::new` starts it as the
one-element chain holding the global scope, and `execute_code` on any
non-empty chain always returns (the `insert_var` unwrap never fires) with the
chain length preserved, hence still non-empty; concretely, a `let a = 7` run
leaves the global binding in place and a second `execute_code` call on the
same executor still sees `a`. -/
theorem C10_scope_chain_invariant :
    (∀ (flag : Bool) (g : Scope), (Executor.new flag g).scopes = [g])
    ∧ (∀ (fuel : Nat) (ex : Executor) (prog : Exec.Block), ex.scopes ≠ [] →
        ∃ ex2, execute_code fuel ex prog = some ex2 ∧
          ex2.scopes.length = ex.scopes.length ∧ ex2.scopes ≠ [])
    ∧ execute_code 10 (Executor.new false Scope.new)
        ⟨[.Assign "a" (.Literal (.Number 7))]⟩ =
        some { scopes := [[("a", Literal.Number 7)]], print_expr_result := false,
               outLog := [], errLog := [] }
    ∧ execute_code 10
        { scopes := [[("a", Literal.Number 7)]], print_expr_result := false,
          outLog := [], errLog := [] }
        ⟨[.Print (.Ident "a")]⟩ =
        some { scopes := [[("a", Literal.Number 7)]], print_expr_result := false,
               outLog := [Literal.Number 7], errLog := [] } := by
  refine ⟨fun flag g => rfl, ?_, rfl, rfl⟩
  intro fuel ex prog hne
  obtain ⟨ex2, h2, hl⟩ := (exec_preserves_length fuel).2.1 ex prog.stmts hne
  exact ⟨ex2, h2, hl, scopes_ne_of_length_eq hl hne⟩

open Exec in
/-- Witness for C10: `execute_code` on a concrete one-scope executor returns
with the chain length preserved and non-empty. -/
theorem C10_scope_chain_invariant_witness :
    ∃ ex2, execute_code 3
        { scopes := [[("z", Literal.Number 0)]], print_expr_result := false,
          outLog := [], errLog := [] }
        ⟨[.Assign "b" (.Literal (.Number 1))]⟩ = some ex2 ∧
      ex2.scopes.length =
        ({ scopes := [[("z", Literal.Number 0)]], print_expr_result := false,
           outLog := [], errLog := [] } : Executor).scopes.length ∧
      ex2.scopes ≠ [] :=
  C10_scope_chain_invariant.2.1 3
    { scopes := [[("z", Literal.Number 0)]], print_expr_result := false,
      outLog := [], errLog := [] }
    ⟨[.Assign "b" (.Literal (.Number 1))]⟩ (by simp)


end Estel
